import Mathlib

/-!
# Compile-time type traits of `tensorview/core/nvrtc/type_traits.h`

The header is pure template metaprogramming: every "function" is a class
template whose partial specialisations are selected by pattern matching on a
C++ type (or on integer template arguments) and whose result is a member
typedef or a static constant.  The embedding is therefore

* a datatype `Ty` of C++ types, with the language rules for top-level
  cv-qualification and for matching a type against a specialisation pattern
  (`_Tp const`, `_Tp *`, `_Tp[_Size]`, `_Res(_ArgTypes...)`, ...);
* one Lean function per trait, written as "first matching specialisation,
  else the primary template"; a trait whose selected template has no member
  (an incomplete type, a failed substitution) returns `none`;
* integer sequences as lists of integer template arguments, with `size_t`
  arithmetic taken modulo `2 ^ w` and every template argument checked against
  the range of the element type.

Names follow the header; the reserved prefix `__` of a few helpers is dropped
(`__decay_selector` is `decay_selector`, `__remove_pointer_helper` is
`remove_pointer_helper`, and so on).
-/

namespace TypeTraits

/-! ## C++ types -/

/-- Ref-qualifier of a function type: none, `&` or `&&`. -/
inductive RefQual where
  | none
  | lvalue
  | rvalue
  deriving DecidableEq

mutual
/-- C++ types.  Top-level `const`/`volatile` is a pair of flags on the kinds
of type that can carry it (named types, pointers, pointers to members); an
array has the qualification of its element type; references and function
types are never cv-qualified.  The `c v` flags of `func` are the
cv-qualifier-seq of the function declarator (as in `void() const`), `ref` its
ref-qualifier, `variadic` the trailing C ellipsis and `noex` its exception
specification. -/
inductive Ty where
  | named (id : Nat) (c v : Bool)
  | ptr (pointee : Ty) (c v : Bool)
  | memptr (cls : Nat) (member : Ty) (c v : Bool)
  | lref (referent : Ty)
  | rref (referent : Ty)
  | arr (elem : Ty) (size : Nat)
  | arrU (elem : Ty)
  | func (res : Ty) (args : TyList) (variadic c v : Bool) (ref : RefQual) (noex : Bool)
  deriving DecidableEq
/-- Parameter-type lists of function types. -/
inductive TyList where
  | nil
  | cons (head : Ty) (tail : TyList)
  deriving DecidableEq
end

/-- Whether the type is top-level const-qualified (an array is as qualified as
its elements). -/
def Ty.isConst : Ty → Bool
  | .named _ c _ => c
  | .ptr _ c _ => c
  | .memptr _ _ c _ => c
  | .arr e _ => e.isConst
  | .arrU e => e.isConst
  | .lref _ => false
  | .rref _ => false
  | .func _ _ _ _ _ _ _ => false

/-- Whether the type is top-level volatile-qualified. -/
def Ty.isVolatile : Ty → Bool
  | .named _ _ v => v
  | .ptr _ _ v => v
  | .memptr _ _ _ v => v
  | .arr e _ => e.isVolatile
  | .arrU e => e.isVolatile
  | .lref _ => false
  | .rref _ => false
  | .func _ _ _ _ _ _ _ => false

/-- Sets the top-level const flag to `b`; qualifying an array qualifies its
elements, and a reference or function type stays as it is. -/
def Ty.setConst (b : Bool) : Ty → Ty
  | .named i _ v => .named i b v
  | .ptr p _ v => .ptr p b v
  | .memptr k m _ v => .memptr k m b v
  | .arr e n => .arr (e.setConst b) n
  | .arrU e => .arrU (e.setConst b)
  | .lref r => .lref r
  | .rref r => .rref r
  | .func r a va c v q x => .func r a va c v q x

/-- Sets the top-level volatile flag to `b`. -/
def Ty.setVolatile (b : Bool) : Ty → Ty
  | .named i c _ => .named i c b
  | .ptr p c _ => .ptr p c b
  | .memptr k m c _ => .memptr k m c b
  | .arr e n => .arr (e.setVolatile b) n
  | .arrU e => .arrU (e.setVolatile b)
  | .lref r => .lref r
  | .rref r => .rref r
  | .func r a va c v q x => .func r a va c v q x

/-- The type written `T const`. -/
def Ty.const (T : Ty) : Ty := T.setConst true

/-- The type written `T volatile`. -/
def Ty.volatile (T : Ty) : Ty := T.setVolatile true

/-- The type written `T *` (an unqualified pointer to `T`). -/
def Ty.pointer (T : Ty) : Ty := .ptr T false false

/-- Whether top-level cv-qualifiers attach to the type: not to a reference or
a function type, and to an array as to its elements. -/
def Ty.isQualifiable : Ty → Bool
  | .named _ _ _ => true
  | .ptr _ _ _ => true
  | .memptr _ _ _ _ => true
  | .arr e _ => e.isQualifiable
  | .arrU e => e.isQualifiable
  | .lref _ => false
  | .rref _ => false
  | .func _ _ _ _ _ _ _ => false

/-- Whether the type is a function type, whatever its qualifiers and
exception specification. -/
def Ty.isFunc : Ty → Bool
  | .func _ _ _ _ _ _ _ => true
  | _ => false

/-- Whether the type is an array type, of known or unknown bound. -/
def Ty.isArr : Ty → Bool
  | .arr _ _ => true
  | .arrU _ => true
  | _ => false

/-- Whether the type is a reference type. -/
def Ty.isRef : Ty → Bool
  | .lref _ => true
  | .rref _ => true
  | _ => false

/-- Whether the type is a pointer type, whatever its top-level qualifiers. -/
def Ty.isPtr : Ty → Bool
  | .ptr _ _ _ => true
  | _ => false

/-! ## Matching a type against a specialisation pattern

Each function returns the deduced template arguments when the type has the
form of the pattern, and `none` when deduction fails. -/

/-- Pattern `_Tp const`. -/
def match_const (T : Ty) : Option Ty :=
  if T.isConst then some (T.setConst false) else none

/-- Pattern `_Tp volatile`. -/
def match_volatile (T : Ty) : Option Ty :=
  if T.isVolatile then some (T.setVolatile false) else none

/-- Pattern `_Tp const volatile`. -/
def match_const_volatile (T : Ty) : Option Ty :=
  if T.isConst && T.isVolatile then some ((T.setConst false).setVolatile false) else none

/-- Pattern `_Tp *`: only an unqualified pointer type has this form. -/
def match_pointer : Ty → Option Ty
  | .ptr p false false => some p
  | _ => none

/-- Pattern `_Tp &`. -/
def match_lref : Ty → Option Ty
  | .lref r => some r
  | _ => none

/-- Pattern `_Tp &&`. -/
def match_rref : Ty → Option Ty
  | .rref r => some r
  | _ => none

/-- Pattern `_Tp[_Size]`. -/
def match_array : Ty → Option (Ty × Nat)
  | .arr e n => some (e, n)
  | _ => none

/-- Pattern `_Tp[]`. -/
def match_array_unbounded : Ty → Option Ty
  | .arrU e => some e
  | _ => none

/-- The shape of a function-type pattern
`_Res(_ArgTypes...) cv ref` or `_Res(_ArgTypes......) cv ref`. -/
structure FunctionPattern where
  variadic : Bool
  c : Bool
  v : Bool
  ref : RefQual
  noex : Bool
  deriving DecidableEq

/-- Matches a type against a function-type pattern: the C ellipsis, the
cv-qualifier-seq, the ref-qualifier and the exception specification are
written in the pattern and must agree; the result type and the parameter
types are deduced. -/
def match_function (p : FunctionPattern) : Ty → Option (Ty × TyList)
  | .func r a va c v q x =>
    if va = p.variadic ∧ c = p.c ∧ v = p.v ∧ q = p.ref ∧ x = p.noex then some (r, a) else none
  | _ => none

/-! ## Integer sequences -/

/-- An integer type, by its width in bits and its signedness. -/
structure IntegerType where
  bits : Nat
  signed : Bool
  deriving DecidableEq

/-- Smallest value of the type. -/
def IntegerType.minValue (T : IntegerType) : Int :=
  if T.signed then -(2 ^ (T.bits - 1)) else 0

/-- Largest value of the type. -/
def IntegerType.maxValue (T : IntegerType) : Int :=
  if T.signed then 2 ^ (T.bits - 1) - 1 else 2 ^ T.bits - 1

/-- A constant used as a template argument of type `T`: the conversion must
not narrow, so the value has to be one of `T`. -/
def IntegerType.convert (T : IntegerType) (x : Int) : Option Int :=
  if T.minValue ≤ x ∧ x ≤ T.maxValue then some x else none

/-- Modelled from the spec: `size_t` is declared outside this header; it is
the unsigned integer type of `w` bits. -/
def size_t (w : Nat) : IntegerType := ⟨w, false⟩

/-- The expression `Ints + SeqSize` for `Ints` of type `T` and `SeqSize` of type
`size_t`.  When `T` is no wider than `size_t` both operands are converted to
`size_t` and the sum wraps modulo `2 ^ w`; a wider `T` is the common type, and
a signed overflow there is not a constant expression. -/
def add_size_t (w : Nat) (T : IntegerType) (i : Int) (SeqSize : Nat) : Option Int :=
  if T.bits ≤ w then some ((i + SeqSize) % 2 ^ w)
  else if T.signed then T.convert (i + SeqSize)
  else some ((i + SeqSize) % 2 ^ T.bits)

/-- The expression `2 * SeqSize`, computed in `size_t`. -/
def twice_size_t (w : Nat) (SeqSize : Nat) : Option Int :=
  some (((2 * SeqSize : Nat) : Int) % 2 ^ w)

/-- The type `integer_sequence<T, Ints...>`. -/
structure integer_sequence where
  value_type : IntegerType
  Ints : List Int
  deriving DecidableEq

/-- The member `integer_sequence<T, Ints...>::size()`, which returns
`sizeof...(Ints)`. -/
def integer_sequence.size (s : integer_sequence) : Nat := s.Ints.length

/-- Converts a list of template arguments to type `T`; one ill-formed argument
makes the template-id ill-formed. -/
def convert_args (T : IntegerType) : List (Option Int) → Option (List Int)
  | [] => some []
  | a :: rest =>
    match a.bind T.convert, convert_args T rest with
    | some x, some xs => some (x :: xs)
    | _, _ => none

/-- The template-id `integer_sequence<T, args...>`. -/
def integer_sequence.instantiate (T : IntegerType) (args : List (Option Int)) :
    Option integer_sequence :=
  (convert_args T args).map (fun l => ⟨T, l⟩)

/-- The alias `index_sequence<Ints...>`, which is `integer_sequence<size_t, Ints...>`. -/
def index_sequence (w : Nat) (Ints : List Int) : Option integer_sequence :=
  integer_sequence.instantiate (size_t w) (Ints.map some)

/-- The member `utility_internal::Extend<Seq, SeqSize, Rem>::type`.  The two
specialisations are for `Rem` equal to 0 and to 1; the primary template is only
declared, so any other `Rem` names no type. -/
def Extend (w : Nat) (Seq : integer_sequence) (SeqSize Rem : Nat) : Option integer_sequence :=
  match Rem with
  | 0 =>
    integer_sequence.instantiate Seq.value_type
      (Seq.Ints.map some ++ Seq.Ints.map (fun i => add_size_t w Seq.value_type i SeqSize))
  | 1 =>
    integer_sequence.instantiate Seq.value_type
      (Seq.Ints.map some ++ Seq.Ints.map (fun i => add_size_t w Seq.value_type i SeqSize)
        ++ [twice_size_t w SeqSize])
  | _ => none

/-- The recursion of `utility_internal::Gen<T, N>::type`, cut after `fuel`
nested instantiations: the specialisation for 0 gives the empty sequence, the
primary template extends `Gen<T, N / 2>::type` by `Extend<_, N / 2, N % 2>`. -/
def Gen_fuel (w : Nat) (T : IntegerType) : Nat → Nat → Option integer_sequence
  | 0, _ => none
  | fuel + 1, N =>
    if N = 0 then some ⟨T, []⟩
    else (Gen_fuel w T fuel (N / 2)).bind (fun s => Extend w s (N / 2) (N % 2))

/-- The member `utility_internal::Gen<T, N>::type`; `N + 1` nested
instantiations are always enough, since `N / 2 < N` for positive `N`. -/
def Gen (w : Nat) (T : IntegerType) (N : Nat) : Option integer_sequence :=
  Gen_fuel w T (N + 1) N

/-- The alias `make_integer_sequence<T, N>`: `N` is a template argument of type
`T`, passed on to the `size_t` parameter of `Gen`. -/
def make_integer_sequence (w : Nat) (T : IntegerType) (N : Int) : Option integer_sequence :=
  (T.convert N).bind (fun n => ((size_t w).convert n).bind (fun m => Gen w T m.toNat))

/-- The alias `make_index_sequence<N>`, which is `make_integer_sequence<size_t, N>`. -/
def make_index_sequence (w : Nat) (N : Int) : Option integer_sequence :=
  make_integer_sequence w (size_t w) N

/-- The alias `index_sequence_for<Ts...>`, which is
`make_index_sequence<sizeof...(Ts)>`; `sizeof...` is a `size_t`. -/
def index_sequence_for (w : Nat) (Ts : List Ty) : Option integer_sequence :=
  ((size_t w).convert (Ts.length : Int)).bind (fun k => make_index_sequence w k)

/-! ## Qualifier traits -/

/-- The member `remove_const<T>::type`: the specialisation for `_Tp const` gives
`_Tp`, the primary template gives the type itself. -/
def remove_const (T : Ty) : Ty :=
  match match_const T with
  | some Tp => Tp
  | none => T

/-- The member `remove_volatile<T>::type`. -/
def remove_volatile (T : Ty) : Ty :=
  match match_volatile T with
  | some Tp => Tp
  | none => T

/-- The member `remove_cv<T>::type`, which is
`remove_const<remove_volatile<T>::type>::type`. -/
def remove_cv (T : Ty) : Ty := remove_const (remove_volatile T)

/-- The member `add_const<T>::type`, which is `T const`. -/
def add_const (T : Ty) : Ty := T.const

/-- The member `add_volatile<T>::type`, which is `T volatile`. -/
def add_volatile (T : Ty) : Ty := T.volatile

/-- The member `add_cv<T>::type`, which is
`add_const<add_volatile<T>::type>::type`. -/
def add_cv (T : Ty) : Ty := add_const (add_volatile T)

/-- The constant `is_const<T>::value`: true through the specialisation for
`_Tp const`, false through the primary template. -/
def is_const (T : Ty) : Bool := (match_const T).isSome

/-- The constant `is_volatile<T>::value`. -/
def is_volatile (T : Ty) : Bool := (match_volatile T).isSome

/-! ## Pointers, references, arrays -/

/-- The member `__remove_pointer_helper<_Tp, X>::type`: the specialisation for
`X` of the form `_Up *` gives `_Up`, the primary template gives `_Tp`. -/
def remove_pointer_helper (Tp X : Ty) : Ty :=
  match match_pointer X with
  | some Up => Up
  | none => Tp

/-- The member `remove_pointer<T>::type`, inherited from
`__remove_pointer_helper<T, remove_cv<T>::type>`. -/
def remove_pointer (T : Ty) : Ty := remove_pointer_helper T (remove_cv T)

/-- The member `remove_reference<T>::type`. -/
def remove_reference (T : Ty) : Ty :=
  match match_lref T with
  | some Tp => Tp
  | none =>
    match match_rref T with
    | some Tp => Tp
    | none => T

/-- The member `remove_extent<T>::type`. -/
def remove_extent (T : Ty) : Ty :=
  match match_array T with
  | some (Tp, _) => Tp
  | none =>
    match match_array_unbounded T with
    | some Tp => Tp
    | none => T

/-- The constant `is_array<T>::value`. -/
def is_array (T : Ty) : Bool :=
  (match_array T).isSome || (match_array_unbounded T).isSome

/-- The constant `__is_pointer_helper<T>::value`. -/
def is_pointer_helper (T : Ty) : Bool := (match_pointer T).isSome

/-- The constant `is_pointer<T>::value`, inherited from
`__is_pointer_helper<remove_cv<T>::type>`. -/
def is_pointer (T : Ty) : Bool := is_pointer_helper (remove_cv T)

/-- The constant `is_lvalue_reference<T>::value`. -/
def is_lvalue_reference (T : Ty) : Bool := (match_lref T).isSome

/-! ## Function types -/

/-- The macro `_GLIBCXX_NOEXCEPT_QUAL`, defined empty in the header: the
patterns of `is_function` carry no exception specification. -/
def GLIBCXX_NOEXCEPT_QUAL : Bool := false

/-- The patterns of the specialisations of `is_function`, in the order of the
header. -/
def is_function_patterns : List FunctionPattern :=
  [ ⟨false, false, false, .none, GLIBCXX_NOEXCEPT_QUAL⟩,
    ⟨false, false, false, .lvalue, GLIBCXX_NOEXCEPT_QUAL⟩,
    ⟨false, false, false, .rvalue, GLIBCXX_NOEXCEPT_QUAL⟩,
    ⟨true, false, false, .none, GLIBCXX_NOEXCEPT_QUAL⟩,
    ⟨true, false, false, .lvalue, GLIBCXX_NOEXCEPT_QUAL⟩,
    ⟨true, false, false, .rvalue, GLIBCXX_NOEXCEPT_QUAL⟩,
    ⟨false, true, false, .none, GLIBCXX_NOEXCEPT_QUAL⟩,
    ⟨false, true, false, .lvalue, GLIBCXX_NOEXCEPT_QUAL⟩,
    ⟨false, true, false, .rvalue, GLIBCXX_NOEXCEPT_QUAL⟩,
    ⟨true, true, false, .none, GLIBCXX_NOEXCEPT_QUAL⟩,
    ⟨true, true, false, .lvalue, GLIBCXX_NOEXCEPT_QUAL⟩,
    ⟨true, true, false, .rvalue, GLIBCXX_NOEXCEPT_QUAL⟩,
    ⟨false, false, true, .none, GLIBCXX_NOEXCEPT_QUAL⟩,
    ⟨false, false, true, .lvalue, GLIBCXX_NOEXCEPT_QUAL⟩,
    ⟨false, false, true, .rvalue, GLIBCXX_NOEXCEPT_QUAL⟩,
    ⟨true, false, true, .none, GLIBCXX_NOEXCEPT_QUAL⟩,
    ⟨true, false, true, .lvalue, GLIBCXX_NOEXCEPT_QUAL⟩,
    ⟨true, false, true, .rvalue, GLIBCXX_NOEXCEPT_QUAL⟩,
    ⟨false, true, true, .none, GLIBCXX_NOEXCEPT_QUAL⟩,
    ⟨false, true, true, .lvalue, GLIBCXX_NOEXCEPT_QUAL⟩,
    ⟨false, true, true, .rvalue, GLIBCXX_NOEXCEPT_QUAL⟩,
    ⟨true, true, true, .none, GLIBCXX_NOEXCEPT_QUAL⟩,
    ⟨true, true, true, .lvalue, GLIBCXX_NOEXCEPT_QUAL⟩,
    ⟨true, true, true, .rvalue, GLIBCXX_NOEXCEPT_QUAL⟩ ]

/-- The constant `is_function<T>::value`: true through any of the
specialisations, false through the primary template. -/
def is_function (T : Ty) : Bool :=
  is_function_patterns.any (fun p => (match_function p T).isSome)

/-! ## Decay -/

/-- The member `__decay_selector<_Up, _IsArray, _IsFunction>::__type`.  The
header defines the specialisations `<_Up, false, false>` and
`<_Up, true, false>`; the one for functions is commented out and the primary
template is only declared, so with `_IsFunction` true there is no member. -/
def decay_selector (Up : Ty) (IsArray IsFunction : Bool) : Option Ty :=
  match IsArray, IsFunction with
  | false, false => some (remove_cv Up)
  | true, false => some (remove_extent Up).pointer
  | _, true => none

/-- The member `decay<T>::type`: `__decay_selector` applied to
`remove_reference<T>::type`, with the defaults `is_array` and `is_function` of
its boolean parameters. -/
def decay (T : Ty) : Option Ty :=
  let remove_type := remove_reference T
  decay_selector remove_type (is_array remove_type) (is_function remove_type)

/-! ## Tuple protocol -/

/-- The type `void`, taken as the named type 0. -/
def void : Ty := .named 0 false false

/-- Modelled from the spec: `is_same` is commented out in this header and comes
from the including headers; `is_same<A, B>::value` is true exactly for the same
type. -/
def is_same (A B : Ty) : Bool := decide (A = B)

/-- Modelled from the spec: `enable_if` is commented out in this header and
comes from the including headers; `enable_if<B, T>::type` is `T` when `B` is
true and there is no member otherwise. -/
def enable_if (B : Bool) (T : Ty) : Option Ty := if B then some T else none

/-- The alias `__enable_if_has_tuple_size<_Tp>`.  Its defaulted arguments are
substituted in order: `_Up` is `remove_cv<_Tp>::type`, then
`enable_if<is_same<_Tp, _Up>::value>::type` must exist, then
`tuple_size<_Tp>::value` (given by `ts`) must exist; the alias then names
`_Tp`, and otherwise substitution fails. -/
def enable_if_has_tuple_size (ts : Ty → Option Nat) (Tp : Ty) : Option Ty :=
  let Up := remove_cv Tp
  (enable_if (is_same Tp Up) void).bind (fun _ => (ts Tp).bind (fun _ => some Tp))

/-- The specialisation `tuple_size<const __enable_if_has_tuple_size<_Tp>>`
tried on `T`: the `_Tp` it is selected with, or `none` when deduction or
substitution fails. -/
def tuple_size_spec_const (ts : Ty → Option Nat) (T : Ty) : Option Ty :=
  (match_const T).bind (enable_if_has_tuple_size ts)

/-- The specialisation `tuple_size<volatile __enable_if_has_tuple_size<_Tp>>`
tried on `T`. -/
def tuple_size_spec_volatile (ts : Ty → Option Nat) (T : Ty) : Option Ty :=
  (match_volatile T).bind (enable_if_has_tuple_size ts)

/-- The specialisation
`tuple_size<const volatile __enable_if_has_tuple_size<_Tp>>` tried on `T`. -/
def tuple_size_spec_const_volatile (ts : Ty → Option Nat) (T : Ty) : Option Ty :=
  (match_const_volatile T).bind (enable_if_has_tuple_size ts)

/-- The constant `tuple_size<T>::value`, cut after `fuel` nested
instantiations.  The header declares the primary template and defines the three
specialisations for qualified types, each inheriting from `tuple_size<_Tp>`;
the definitions for unqualified types (tuples, pairs, arrays) come from
elsewhere and are the parameter `ext`.  The specialisation for
`const volatile` is more specialised than the other two; two selected
specialisations neither of which is more specialised are an ambiguity. -/
def tuple_size_fuel (ext : Ty → Option Nat) : Nat → Ty → Option Nat
  | 0, _ => none
  | fuel + 1, T =>
    match tuple_size_spec_const_volatile (tuple_size_fuel ext fuel) T with
    | some Tp => tuple_size_fuel ext fuel Tp
    | none =>
      match tuple_size_spec_const (tuple_size_fuel ext fuel) T,
            tuple_size_spec_volatile (tuple_size_fuel ext fuel) T with
      | some Tp, none => tuple_size_fuel ext fuel Tp
      | none, some Tp => tuple_size_fuel ext fuel Tp
      | some _, some _ => none
      | none, none => if T.isConst || T.isVolatile then none else ext T

/-- The constant `tuple_size<T>::value`.  A selected specialisation has an
unqualified `_Tp`, whose `tuple_size` is read from `ext`: two nested
instantiations are enough. -/
def tuple_size (ext : Ty → Option Nat) (T : Ty) : Option Nat :=
  tuple_size_fuel ext 2 T

/-- The member `tuple_element<i, T>::type`, cut after `fuel` nested
instantiations.  The header declares the primary template and defines the three
specialisations for qualified types; the definitions for unqualified types come
from elsewhere and are the parameter `ext`.  On a `const volatile` type all
three patterns match and the one for `const volatile` is the most
specialised. -/
def tuple_element_fuel (ext : Nat → Ty → Option Ty) : Nat → Nat → Ty → Option Ty
  | 0, _, _ => none
  | fuel + 1, i, T =>
    match match_const_volatile T with
    | some Tp => (tuple_element_fuel ext fuel i Tp).map add_cv
    | none =>
      match match_const T with
      | some Tp => (tuple_element_fuel ext fuel i Tp).map add_const
      | none =>
        match match_volatile T with
        | some Tp => (tuple_element_fuel ext fuel i Tp).map add_volatile
        | none => ext i T

/-- The member `tuple_element<i, T>::type`.  The selected specialisation strips
every qualifier of `T`, so the nested instantiation reads `ext`: two nested
instantiations are enough. -/
def tuple_element (ext : Nat → Ty → Option Ty) (i : Nat) (T : Ty) : Option Ty :=
  tuple_element_fuel ext 2 i T

/-! ## The standard's decay, for comparison -/

/-- The `add_pointer` of the C++ standard, written from its words: for a
referenceable type or a void type the result is `remove_reference_t<T>*`,
otherwise (a function type with a cv-qualifier-seq or a ref-qualifier) it is
`T` itself. -/
def add_pointer_standard (T : Ty) : Ty :=
  match T with
  | .func _ _ _ c v q _ => if c = false ∧ v = false ∧ q = RefQual.none then T.pointer else T
  | _ => (remove_reference T).pointer

/-- The decay of the C++ standard, written from its words: with `U` the type
`remove_reference_t<T>`, the result is `remove_extent_t<U>*` if `U` is an array
type, `add_pointer_t<U>` if `U` is a function type, and `remove_cv_t<U>`
otherwise. -/
def decay_standard (T : Ty) : Ty :=
  let U := remove_reference T
  if U.isArr then (remove_extent U).pointer
  else if U.isFunc then add_pointer_standard U
  else remove_cv U

/-! ## References and forwarding -/

/-- The type written `T &`, with reference collapsing. -/
def Ty.lvalue_reference : Ty → Ty
  | .lref U => .lref U
  | .rref U => .lref U
  | T => .lref T

/-- The type written `T &&`, with reference collapsing: an lvalue reference
stays an lvalue reference. -/
def Ty.rvalue_reference : Ty → Ty
  | .lref U => .lref U
  | .rref U => .rref U
  | T => .rref T

/-- A reference of the reference type `R`, by the object it is bound to. -/
structure Reference (R : Ty) where
  object : Nat
  deriving DecidableEq

/-- The type of a reference. -/
def Reference.type {R : Ty} (_ : Reference R) : Ty := R

/-- The function `forward<T>`: its parameter `__t` has the type
`remove_reference<T>::type &`, its return type is `T &&`, and it returns
`static_cast<T &&>(__t)`, a reference to the object of `__t`. -/
def forward (T : Ty) (t : Reference (remove_reference T).lvalue_reference) :
    Reference T.rvalue_reference :=
  ⟨t.object⟩

/-! ## Boolean constants -/

/-- A class with a static boolean member `value`, as the arguments of `__or_`
and `__and_` are; `id` tells classes of the same value apart. -/
structure BoolConstant where
  id : Nat
  value : Bool
  deriving DecidableEq

/-- Modelled from the spec: `true_type` is commented out in this header and
comes from the including headers; it is the boolean constant of value true. -/
def true_type : BoolConstant := ⟨1, true⟩

/-- Modelled from the spec: `false_type` is commented out in this header and
comes from the including headers; it is the boolean constant of value false. -/
def false_type : BoolConstant := ⟨0, false⟩

/-- The member `conditional<_Cond, _Iftrue, _Iffalse>::type`: the primary
template gives `_Iftrue`, the specialisation for `false` gives `_Iffalse`. -/
def conditional {α : Type} (Cond : Bool) (Iftrue Iffalse : α) : α :=
  match Cond with
  | false => Iffalse
  | true => Iftrue

/-- The alias `conditional_t`. -/
def conditional_t {α : Type} (Cond : Bool) (Iftrue Iffalse : α) : α :=
  conditional Cond Iftrue Iffalse

/-- The boolean constant `__or_<B1, ..., Bn>` derives from, directly or through
the nested `__or_<B2, ..., Bn>` selected by `conditional`. -/
def or_ : List BoolConstant → BoolConstant
  | [] => false_type
  | [B1] => B1
  | [B1, B2] => conditional B1.value B1 B2
  | B1 :: B2 :: B3 :: Bn => conditional B1.value B1 (or_ (B2 :: B3 :: Bn))

/-- The boolean constant `__and_<B1, ..., Bn>` derives from, directly or
through the nested `__and_<B2, ..., Bn>` selected by `conditional`. -/
def and_ : List BoolConstant → BoolConstant
  | [] => true_type
  | [B1] => B1
  | [B1, B2] => conditional B1.value B2 B1
  | B1 :: B2 :: B3 :: Bn => conditional B1.value (and_ (B2 :: B3 :: Bn)) B1

/-- The alias `enable_if_t<_Cond, _Tp>`. -/
def enable_if_t (Cond : Bool) (Tp : Ty) : Option Ty := enable_if Cond Tp

/-- The alias `_Require<_Cond...>`, which is
`enable_if<__and_<_Cond...>::value>::type` with the default `void`. -/
def Require (Cond : List BoolConstant) : Option Ty :=
  enable_if (and_ Cond).value void

/-! ## Instantiations made by `Gen` -/

/-- The values `N` of the instantiations `Gen<T, N>` made, in order, when
`Gen<T, N>::type` is asked for, cut after `fuel` nested instantiations: the
primary template asks for `Gen<T, N / 2>::type`, the specialisation for 0 asks
for nothing. -/
def Gen_instantiations_fuel : Nat → Nat → List Nat
  | 0, _ => []
  | fuel + 1, N => if N = 0 then [0] else N :: Gen_instantiations_fuel fuel (N / 2)

/-- The values `N` of the instantiations `Gen<T, N>` made for
`Gen<T, N>::type`. -/
def Gen_instantiations (N : Nat) : List Nat := Gen_instantiations_fuel (N + 1) N

/-- The instantiations `Extend<Seq, SeqSize, Rem>` made, innermost first, when
`Gen<T, N>::type` is asked for: those of `Gen<T, N / 2>`, then
`Extend<Gen<T, N / 2>::type, N / 2, N % 2>`. -/
def Extend_instantiations_fuel (w : Nat) (T : IntegerType) :
    Nat → Nat → List (integer_sequence × Nat × Nat)
  | 0, _ => []
  | fuel + 1, N =>
    if N = 0 then []
    else
      Extend_instantiations_fuel w T fuel (N / 2) ++
        match Gen_fuel w T fuel (N / 2) with
        | some Seq => [(Seq, N / 2, N % 2)]
        | none => []

/-- The instantiations of `Extend` made for `Gen<T, N>::type`. -/
def Extend_instantiations (w : Nat) (T : IntegerType) (N : Nat) :
    List (integer_sequence × Nat × Nat) :=
  Extend_instantiations_fuel w T (N + 1) N









/-! # Theorems -/

/-! ## Integer sequences -/

theorem IntegerType.minValue_nonpos (T : IntegerType) : T.minValue ≤ 0 := by
  unfold IntegerType.minValue
  split
  · have : (0 : Int) < 2 ^ (T.bits - 1) := by positivity
    omega
  · exact le_refl _

theorem IntegerType.convert_of_nat (T : IntegerType) (k : Nat) (h : (k : Int) ≤ T.maxValue) :
    T.convert (k : Int) = some (k : Int) := by
  have h0 := T.minValue_nonpos
  have hk : (0 : Int) ≤ (k : Int) := Int.ofNat_nonneg k
  unfold IntegerType.convert
  rw [if_pos ⟨by omega, h⟩]

theorem convert_args_map_some (T : IntegerType) (l : List Nat)
    (h : ∀ k ∈ l, (k : Int) ≤ T.maxValue) :
    convert_args T (l.map (fun k : Nat => some (k : Int))) = some (l.map (fun k : Nat => (k : Int))) := by
  induction l with
  | nil => rfl
  | cons a l ih =>
    have ha : (a : Int) ≤ T.maxValue := h a (List.mem_cons_self a l)
    have hl : ∀ k ∈ l, (k : Int) ≤ T.maxValue := fun k hk => h k (List.mem_cons_of_mem a hk)
    simp only [List.map_cons, convert_args, Option.some_bind, T.convert_of_nat a ha, ih hl]

theorem add_size_t_of_nat (w : Nat) (T : IntegerType) (k n : Nat) (hw : k + n < 2 ^ w)
    (hT : ((k + n : Nat) : Int) ≤ T.maxValue) :
    add_size_t w T (k : Int) n = some ((k + n : Nat) : Int) := by
  have hsum : (k : Int) + (n : Int) = ((k + n : Nat) : Int) := by push_cast; rfl
  unfold add_size_t
  rw [hsum]
  split
  · congr 1
    apply Int.emod_eq_of_lt (Int.ofNat_nonneg _)
    exact_mod_cast hw
  · split
    · exact T.convert_of_nat (k + n) hT
    · rename_i hs
      congr 1
      apply Int.emod_eq_of_lt (Int.ofNat_nonneg _)
      have : T.maxValue = 2 ^ T.bits - 1 := by
        unfold IntegerType.maxValue
        rw [if_neg hs]
      omega

theorem twice_size_t_of_lt (w n : Nat) (hw : 2 * n < 2 ^ w) :
    twice_size_t w n = some ((2 * n : Nat) : Int) := by
  unfold twice_size_t
  congr 1
  apply Int.emod_eq_of_lt (Int.ofNat_nonneg _)
  exact_mod_cast hw

/-- Extending the sequence `0, ..., n - 1` by `Extend<_, n, r>` gives `0, ..., 2 n + r - 1`. -/
theorem Extend_range (w : Nat) (T : IntegerType) (n r : Nat) (hr : r ≤ 1)
    (hw : 2 * n + r < 2 ^ w) (hT : ((2 * n + r : Nat) : Int) ≤ T.maxValue) :
    Extend w ⟨T, (List.range n).map (fun k : Nat => (k : Int))⟩ n r
      = some ⟨T, (List.range (2 * n + r)).map (fun k : Nat => (k : Int))⟩ := by
  have hshift : ((List.range n).map (fun k : Nat => (k : Int))).map (fun i => add_size_t w T i n)
      = ((List.range n).map (n + ·)).map (fun k : Nat => some (k : Int)) := by
    rw [List.map_map, List.map_map]
    apply List.map_congr_left
    intro k hk
    have hk' : k < n := List.mem_range.mp hk
    simp only [Function.comp]
    rw [add_size_t_of_nat w T k n (by omega) (by omega), Nat.add_comm]
  have hself : ((List.range n).map (fun k : Nat => (k : Int))).map some
      = (List.range n).map (fun k : Nat => some (k : Int)) := by
    rw [List.map_map]; rfl
  have hmem : ∀ k ∈ List.range (2 * n + r), (k : Int) ≤ T.maxValue := by
    intro k hk
    have : k < 2 * n + r := List.mem_range.mp hk
    omega
  have h2 : List.range (2 * n) = List.range n ++ (List.range n).map (n + ·) := by
    rw [two_mul, List.range_add]
  rcases Nat.le_one_iff_eq_zero_or_eq_one.mp hr with h0 | h1
  · subst h0
    rw [Nat.add_zero] at hmem ⊢
    simp only [Extend, integer_sequence.instantiate]
    rw [hshift, hself, ← List.map_append, ← h2]
    rw [convert_args_map_some T _ hmem]
    rfl
  · subst h1
    have ht : [twice_size_t w n] = [2 * n].map (fun k : Nat => some (k : Int)) := by
      rw [twice_size_t_of_lt w n (by omega)]; rfl
    simp only [Extend, integer_sequence.instantiate]
    rw [hshift, hself, ht, ← List.map_append, ← List.map_append, ← h2, ← List.range_succ]
    rw [convert_args_map_some T _ hmem]
    rfl

/-- With more fuel than `N`, the recursion of `Gen` returns `0, ..., N - 1`. -/
theorem Gen_fuel_range (w : Nat) (T : IntegerType) (fuel : Nat) :
    ∀ N : Nat, N < fuel → N < 2 ^ w → (N : Int) ≤ T.maxValue →
      Gen_fuel w T fuel N = some ⟨T, (List.range N).map (fun k : Nat => (k : Int))⟩ := by
  induction fuel with
  | zero => intro N h; omega
  | succ fuel ih =>
    intro N hf hw hT
    by_cases hN : N = 0
    · subst hN; rfl
    · have hdiv : N / 2 < N := Nat.div_lt_self (Nat.pos_of_ne_zero hN) (by decide)
      have hsplit : 2 * (N / 2) + N % 2 = N := Nat.div_add_mod N 2
      have hrec := ih (N / 2) (by omega) (by omega) (by omega)
      have hext := Extend_range w T (N / 2) (N % 2) (by omega) (by omega) (by omega)
      rw [hsplit] at hext
      simp only [Gen_fuel, if_neg hN, hrec, Option.some_bind, hext]

theorem size_t_maxValue_of_lt (w N : Nat) (h : N < 2 ^ w) : (N : Int) ≤ (size_t w).maxValue := by
  have h1 : (size_t w).maxValue = 2 ^ w - 1 := rfl
  have h2 : ((N : Nat) : Int) < ((2 ^ w : Nat) : Int) := by exact_mod_cast h
  rw [h1]
  push_cast at h2
  omega

theorem make_integer_sequence_range (w : Nat) (T : IntegerType) (N : Nat)
    (hw : N < 2 ^ w) (hT : (N : Int) ≤ T.maxValue) :
    make_integer_sequence w T (N : Int)
      = some ⟨T, (List.range N).map (fun k : Nat => (k : Int))⟩ := by
  unfold make_integer_sequence
  rw [T.convert_of_nat N hT, Option.some_bind,
    (size_t w).convert_of_nat N (size_t_maxValue_of_lt w N hw), Option.some_bind, Int.toNat_ofNat]
  exact Gen_fuel_range w T (N + 1) N (Nat.lt_succ_self N) hw hT

theorem index_sequence_range (w N : Nat) (hw : N < 2 ^ w) :
    index_sequence w ((List.range N).map (fun k : Nat => (k : Int)))
      = some ⟨size_t w, (List.range N).map (fun k : Nat => (k : Int))⟩ := by
  have hmem : ∀ k ∈ List.range N, (k : Int) ≤ (size_t w).maxValue := by
    intro k hk
    have : k < N := List.mem_range.mp hk
    exact size_t_maxValue_of_lt w k (by omega)
  unfold index_sequence integer_sequence.instantiate
  rw [List.map_map]
  have := convert_args_map_some (size_t w) (List.range N) hmem
  simp only [Function.comp_def, this, Option.map_some']

/-- C1: for every `N` (a template argument of the element type `T`, received by
the `size_t` parameter of `Gen`, hence a value of both types, 0 included),
`Gen<T, N>::type` and `make_integer_sequence<T, N>` are exactly
`integer_sequence<T, 0, 1, ..., N-1>`: the values 0 to N-1 in increasing
order, each once, and nothing else. -/
theorem C1_make_integer_sequence (w : Nat) (T : IntegerType) (N : Nat)
    (hw : N < 2 ^ w) (hT : (N : Int) ≤ T.maxValue) :
    Gen w T N = some ⟨T, (List.range N).map (fun k : Nat => (k : Int))⟩ ∧
    make_integer_sequence w T (N : Int)
      = some ⟨T, (List.range N).map (fun k : Nat => (k : Int))⟩ :=
  ⟨Gen_fuel_range w T (N + 1) N (Nat.lt_succ_self N) hw hT,
   make_integer_sequence_range w T N hw hT⟩

/-- Witness of C1: `make_integer_sequence<int, 5>` with a 64-bit `size_t`. -/
theorem C1_make_integer_sequence_witness :
    (5 < 2 ^ 64 ∧ ((5 : Nat) : Int) ≤ (IntegerType.mk 32 true).maxValue) ∧
    (Gen 64 ⟨32, true⟩ 5 = some ⟨⟨32, true⟩, [0, 1, 2, 3, 4]⟩ ∧
     make_integer_sequence 64 ⟨32, true⟩ ((5 : Nat) : Int)
       = some ⟨⟨32, true⟩, [0, 1, 2, 3, 4]⟩) :=
  ⟨⟨by decide, by decide⟩, C1_make_integer_sequence 64 ⟨32, true⟩ 5 (by decide) (by decide)⟩

/-- C2: for every pack `Ts...` of `k` types, `index_sequence_for<Ts...>` is
`index_sequence<0, ..., k-1>` and its `size()` returns `k`;
`integer_sequence<T, Ints...>::size()` returns the number of `Ints`, and
`make_index_sequence<N>::size()` is `N` for every `N`. -/
theorem C2_index_sequence_for (w : Nat) (Ts : List Ty) (hw : Ts.length < 2 ^ w) :
    index_sequence_for w Ts
      = some ⟨size_t w, (List.range Ts.length).map (fun k : Nat => (k : Int))⟩ ∧
    index_sequence_for w Ts
      = index_sequence w ((List.range Ts.length).map (fun k : Nat => (k : Int))) ∧
    (index_sequence_for w Ts).map integer_sequence.size = some Ts.length ∧
    (∀ (T : IntegerType) (Ints : List Int), (integer_sequence.mk T Ints).size = Ints.length) ∧
    (∀ N : Nat, N < 2 ^ w →
      (make_index_sequence w (N : Int)).map integer_sequence.size = some N) := by
  have hfor : index_sequence_for w Ts
      = some ⟨size_t w, (List.range Ts.length).map (fun k : Nat => (k : Int))⟩ := by
    unfold index_sequence_for make_index_sequence
    rw [(size_t w).convert_of_nat Ts.length (size_t_maxValue_of_lt w _ hw), Option.some_bind]
    exact make_integer_sequence_range w (size_t w) Ts.length hw (size_t_maxValue_of_lt w _ hw)
  refine ⟨hfor, ?_, ?_, fun _ _ => rfl, ?_⟩
  · rw [hfor, index_sequence_range w Ts.length hw]
  · rw [hfor]
    simp [integer_sequence.size]
  · intro N hN
    have hmk : make_index_sequence w (N : Int)
        = some ⟨size_t w, (List.range N).map (fun k : Nat => (k : Int))⟩ :=
      make_integer_sequence_range w (size_t w) N hN (size_t_maxValue_of_lt w N hN)
    rw [hmk]
    simp [integer_sequence.size]

/-- Witness of C2: a pack of three types with a 64-bit `size_t`. -/
theorem C2_index_sequence_for_witness :
    [void, void.pointer, void.const].length < 2 ^ 64 ∧
    index_sequence_for 64 [void, void.pointer, void.const] = some ⟨size_t 64, [0, 1, 2]⟩ :=
  ⟨by decide, (C2_index_sequence_for 64 [void, void.pointer, void.const] (by decide)).1⟩

/-! ## Top-level qualifiers -/

theorem Ty.isConst_setConst_false : ∀ T : Ty, (T.setConst false).isConst = false
  | .arr e _ => by simp only [Ty.setConst, Ty.isConst]; exact Ty.isConst_setConst_false e
  | .arrU e => by simp only [Ty.setConst, Ty.isConst]; exact Ty.isConst_setConst_false e
  | .named _ _ _ | .ptr _ _ _ | .memptr _ _ _ _ | .lref _ | .rref _
  | .func _ _ _ _ _ _ _ => by simp [Ty.setConst, Ty.isConst]

theorem Ty.isVolatile_setVolatile_false : ∀ T : Ty, (T.setVolatile false).isVolatile = false
  | .arr e _ => by simp only [Ty.setVolatile, Ty.isVolatile]; exact Ty.isVolatile_setVolatile_false e
  | .arrU e => by simp only [Ty.setVolatile, Ty.isVolatile]; exact Ty.isVolatile_setVolatile_false e
  | .named _ _ _ | .ptr _ _ _ | .memptr _ _ _ _ | .lref _ | .rref _
  | .func _ _ _ _ _ _ _ => by simp [Ty.setVolatile, Ty.isVolatile]

theorem Ty.isConst_setVolatile (b : Bool) : ∀ T : Ty, (T.setVolatile b).isConst = T.isConst
  | .arr e _ => by simp only [Ty.setVolatile, Ty.isConst]; exact Ty.isConst_setVolatile b e
  | .arrU e => by simp only [Ty.setVolatile, Ty.isConst]; exact Ty.isConst_setVolatile b e
  | .named _ _ _ | .ptr _ _ _ | .memptr _ _ _ _ | .lref _ | .rref _
  | .func _ _ _ _ _ _ _ => by simp [Ty.setVolatile, Ty.isConst]

theorem Ty.isVolatile_setConst (b : Bool) : ∀ T : Ty, (T.setConst b).isVolatile = T.isVolatile
  | .arr e _ => by simp only [Ty.setConst, Ty.isVolatile]; exact Ty.isVolatile_setConst b e
  | .arrU e => by simp only [Ty.setConst, Ty.isVolatile]; exact Ty.isVolatile_setConst b e
  | .named _ _ _ | .ptr _ _ _ | .memptr _ _ _ _ | .lref _ | .rref _
  | .func _ _ _ _ _ _ _ => by simp [Ty.setConst, Ty.isVolatile]

theorem Ty.setConst_setConst (a b : Bool) : ∀ T : Ty, (T.setConst a).setConst b = T.setConst b
  | .arr e _ => by simp only [Ty.setConst, Ty.setConst_setConst a b e]
  | .arrU e => by simp only [Ty.setConst, Ty.setConst_setConst a b e]
  | .named _ _ _ | .ptr _ _ _ | .memptr _ _ _ _ | .lref _ | .rref _
  | .func _ _ _ _ _ _ _ => by simp [Ty.setConst]

theorem Ty.setVolatile_setVolatile (a b : Bool) :
    ∀ T : Ty, (T.setVolatile a).setVolatile b = T.setVolatile b
  | .arr e _ => by simp only [Ty.setVolatile, Ty.setVolatile_setVolatile a b e]
  | .arrU e => by simp only [Ty.setVolatile, Ty.setVolatile_setVolatile a b e]
  | .named _ _ _ | .ptr _ _ _ | .memptr _ _ _ _ | .lref _ | .rref _
  | .func _ _ _ _ _ _ _ => by simp [Ty.setVolatile]

theorem Ty.setConst_setVolatile (a b : Bool) :
    ∀ T : Ty, (T.setVolatile b).setConst a = (T.setConst a).setVolatile b
  | .arr e _ => by simp only [Ty.setConst, Ty.setVolatile, Ty.setConst_setVolatile a b e]
  | .arrU e => by simp only [Ty.setConst, Ty.setVolatile, Ty.setConst_setVolatile a b e]
  | .named _ _ _ | .ptr _ _ _ | .memptr _ _ _ _ | .lref _ | .rref _
  | .func _ _ _ _ _ _ _ => by simp [Ty.setConst, Ty.setVolatile]

theorem Ty.setConst_isConst : ∀ T : Ty, T.setConst T.isConst = T
  | .arr e _ => by simp only [Ty.setConst, Ty.isConst, Ty.setConst_isConst e]
  | .arrU e => by simp only [Ty.setConst, Ty.isConst, Ty.setConst_isConst e]
  | .named _ _ _ | .ptr _ _ _ | .memptr _ _ _ _ | .lref _ | .rref _
  | .func _ _ _ _ _ _ _ => by simp [Ty.setConst, Ty.isConst]

theorem Ty.setVolatile_isVolatile : ∀ T : Ty, T.setVolatile T.isVolatile = T
  | .arr e _ => by simp only [Ty.setVolatile, Ty.isVolatile, Ty.setVolatile_isVolatile e]
  | .arrU e => by simp only [Ty.setVolatile, Ty.isVolatile, Ty.setVolatile_isVolatile e]
  | .named _ _ _ | .ptr _ _ _ | .memptr _ _ _ _ | .lref _ | .rref _
  | .func _ _ _ _ _ _ _ => by simp [Ty.setVolatile, Ty.isVolatile]

theorem is_const_eq (T : Ty) : is_const T = T.isConst := by
  unfold is_const match_const
  cases h : T.isConst <;> simp

theorem is_volatile_eq (T : Ty) : is_volatile T = T.isVolatile := by
  unfold is_volatile match_volatile
  cases h : T.isVolatile <;> simp

theorem remove_const_eq (T : Ty) : remove_const T = T.setConst false := by
  unfold remove_const match_const
  cases h : T.isConst
  · have := T.setConst_isConst
    rw [h] at this
    simp [this]
  · simp

theorem remove_volatile_eq (T : Ty) : remove_volatile T = T.setVolatile false := by
  unfold remove_volatile match_volatile
  cases h : T.isVolatile
  · have := T.setVolatile_isVolatile
    rw [h] at this
    simp [this]
  · simp

theorem remove_cv_eq (T : Ty) : remove_cv T = (T.setVolatile false).setConst false := by
  unfold remove_cv
  rw [remove_volatile_eq, remove_const_eq]

/-- C6: for every type `T`, `remove_cv<T>::type` is `T` without its top-level
`const` and `volatile` and otherwise unchanged: `is_const` and `is_volatile`
are false on it, `remove_cv` is idempotent, `remove_const` and
`remove_volatile` commute, putting the qualifiers of `T` back on the result
gives `T` again, and the pointee of a pointer (as in `const int*`), the
referent of a reference and the member type of a pointer to member are kept
with their qualifiers. -/
theorem C6_remove_cv (T : Ty) :
    is_const (remove_cv T) = false ∧
    is_volatile (remove_cv T) = false ∧
    remove_cv (remove_cv T) = remove_cv T ∧
    remove_const (remove_volatile T) = remove_volatile (remove_const T) ∧
    (if is_volatile T then add_volatile else id)
      ((if is_const T then add_const else id) (remove_cv T)) = T ∧
    (∀ (U : Ty) (c v : Bool), remove_cv (.ptr U c v) = .ptr U false false) ∧
    (∀ (k : Nat) (U : Ty) (c v : Bool), remove_cv (.memptr k U c v) = .memptr k U false false) ∧
    (∀ U : Ty, remove_cv (.lref U) = .lref U ∧ remove_cv (.rref U) = .rref U) ∧
    (∀ (U : Ty) (n : Nat), remove_cv (.arr U n) = .arr (remove_cv U) n) := by
  refine ⟨?_, ?_, ?_, ?_, ?_, ?_, ?_, ?_, ?_⟩
  · rw [is_const_eq, remove_cv_eq, Ty.isConst_setConst_false]
  · rw [is_volatile_eq, remove_cv_eq, Ty.isVolatile_setConst, Ty.isVolatile_setVolatile_false]
  · simp only [remove_cv_eq, Ty.setConst_setVolatile, Ty.setConst_setConst,
      Ty.setVolatile_setVolatile]
  · simp only [remove_const_eq, remove_volatile_eq, Ty.setConst_setVolatile]
  · have hc := T.setConst_isConst
    have hv := T.setVolatile_isVolatile
    rw [is_const_eq, is_volatile_eq, remove_cv_eq]
    cases h1 : T.isConst <;> cases h2 : T.isVolatile <;> rw [h1] at hc <;> rw [h2] at hv <;>
      simp only [add_const, add_volatile, Ty.const, Ty.volatile, id, if_true, if_false,
        Bool.false_eq_true, Ty.setConst_setVolatile, Ty.setConst_setConst,
        Ty.setVolatile_setVolatile, hc, hv]
  · intro U c v
    simp [remove_cv_eq, Ty.setConst, Ty.setVolatile]
  · intro k U c v
    simp [remove_cv_eq, Ty.setConst, Ty.setVolatile]
  · intro U
    simp [remove_cv_eq, Ty.setConst, Ty.setVolatile]
  · intro U n
    simp [remove_cv_eq, Ty.setConst, Ty.setVolatile]

/-! ## Pointers -/

theorem match_pointer_remove_cv_ptr (U : Ty) (c v : Bool) :
    match_pointer (remove_cv (.ptr U c v)) = some U := by
  simp [remove_cv_eq, Ty.setConst, Ty.setVolatile, match_pointer]

theorem match_pointer_remove_cv_of_not_ptr (T : Ty) (h : T.isPtr = false) :
    match_pointer (remove_cv T) = none := by
  rw [remove_cv_eq]
  cases T <;> simp_all [Ty.setConst, Ty.setVolatile, match_pointer, Ty.isPtr]

theorem match_pointer_eq_some (X U : Ty) : match_pointer X = some U ↔ X = U.pointer := by
  unfold Ty.pointer
  cases X with
  | ptr p c v => cases c <;> cases v <;> simp [match_pointer]
  | _ => simp [match_pointer]

/-- C7: `remove_pointer` of a pointer type `U*`, whatever its top-level
qualification (`U*`, `U* const`, `U* volatile`, `U* const volatile`), is `U`
with the qualifiers of `U` kept; `remove_pointer` of a type that is not a
pointer is the type itself, top-level qualifiers included. -/
theorem C7_remove_pointer :
    (∀ (U : Ty) (c v : Bool), remove_pointer (.ptr U c v) = U) ∧
    (∀ T : Ty, T.isPtr = false → remove_pointer T = T) := by
  constructor
  · intro U c v
    unfold remove_pointer remove_pointer_helper
    rw [match_pointer_remove_cv_ptr]
  · intro T h
    unfold remove_pointer remove_pointer_helper
    rw [match_pointer_remove_cv_of_not_ptr T h]

/-- Witness of C7: `const int* const volatile` loses the pointer and keeps the
pointee's `const`; `const int` and `int* const&` are left as they are. -/
theorem C7_remove_pointer_witness :
    remove_pointer (.ptr (.named 1 true false) true true) = .named 1 true false ∧
    (Ty.named 1 true false).isPtr = false ∧
    remove_pointer (.named 1 true false) = .named 1 true false ∧
    remove_pointer (.lref (.ptr (.named 1 false false) true false))
      = .lref (.ptr (.named 1 false false) true false) :=
  ⟨C7_remove_pointer.1 _ _ _, rfl, C7_remove_pointer.2 _ rfl, C7_remove_pointer.2 _ rfl⟩

/-- C8: `is_pointer<T>::value` is true exactly when `remove_cv<T>::type` has
the form `U*`, that is when `T` is a pointer type under any top-level
qualification; it equals `is_pointer` of `remove_cv<T>::type`; and it is false
for every type that is not a pointer: references (also to pointers), arrays,
named types, pointers to members, function types. -/
theorem C8_is_pointer (T : Ty) :
    (is_pointer T = true ↔ ∃ U : Ty, remove_cv T = U.pointer) ∧
    (is_pointer T = true ↔ ∃ (U : Ty) (c v : Bool), T = .ptr U c v) ∧
    is_pointer T = is_pointer (remove_cv T) ∧
    (T.isPtr = false → is_pointer T = false) ∧
    (∀ P : Ty, is_pointer (.lref P) = false ∧ is_pointer (.rref P) = false) ∧
    (∀ (E : Ty) (n : Nat), is_pointer (.arr E n) = false ∧ is_pointer (.arrU E) = false) ∧
    (∀ (i : Nat) (c v : Bool), is_pointer (.named i c v) = false) := by
  have hnot : ∀ X : Ty, X.isPtr = false → is_pointer X = false := by
    intro X h
    unfold is_pointer is_pointer_helper
    rw [match_pointer_remove_cv_of_not_ptr X h]
    rfl
  have hptr : ∀ (U : Ty) (c v : Bool), is_pointer (.ptr U c v) = true := by
    intro U c v
    unfold is_pointer is_pointer_helper
    rw [match_pointer_remove_cv_ptr]
    rfl
  refine ⟨?_, ?_, ?_, hnot T, fun P => ⟨hnot _ rfl, hnot _ rfl⟩,
    fun E n => ⟨hnot _ rfl, hnot _ rfl⟩, fun i c v => hnot _ rfl⟩
  · unfold is_pointer is_pointer_helper
    constructor
    · intro h
      obtain ⟨U, hU⟩ := Option.isSome_iff_exists.mp h
      exact ⟨U, (match_pointer_eq_some _ _).mp hU⟩
    · rintro ⟨U, hU⟩
      rw [(match_pointer_eq_some _ _).mpr hU]
      rfl
  · constructor
    · intro h
      cases hT : T.isPtr
      · rw [hnot T hT] at h
        exact absurd h (by decide)
      · cases T <;> simp [Ty.isPtr] at hT
        exact ⟨_, _, _, rfl⟩
    · rintro ⟨U, c, v, rfl⟩
      exact hptr U c v
  · have hidem : remove_cv (remove_cv T) = remove_cv T := by
      simp only [remove_cv_eq, Ty.setConst_setVolatile, Ty.setConst_setConst,
        Ty.setVolatile_setVolatile]
    unfold is_pointer
    rw [hidem]

/-- Witness of C8: a reference to a pointer is not a pointer, a `const`
pointer is. -/
theorem C8_is_pointer_witness :
    (Ty.lref (.ptr void false false)).isPtr = false ∧
    is_pointer (.lref (.ptr void false false)) = false ∧
    is_pointer (.ptr void true false) = true :=
  ⟨rfl, (C8_is_pointer (.lref (.ptr void false false))).2.2.2.1 rfl,
   (C8_is_pointer (.ptr void true false)).2.1.mpr ⟨_, _, _, rfl⟩⟩

/-! ## Function types -/

/-- C5: `is_function<T>::value` is true for every function type without
`noexcept`, for each of the 24 combinations of C-variadic or not,
cv-qualifier and ref-qualifier, with any return type and any parameter list;
it is false for every type that is not a function type (named types, pointers
also to functions, references also to functions, arrays, pointers to
members). -/
theorem C5_is_function :
    (∀ (res : Ty) (args : TyList) (variadic c v : Bool) (ref : RefQual),
      is_function (.func res args variadic c v ref false) = true) ∧
    (∀ T : Ty, T.isFunc = false → is_function T = false) ∧
    is_function_patterns.length = 24 ∧ is_function_patterns.Nodup := by
  refine ⟨?_, ?_, by decide, by decide⟩
  · intro res args variadic c v ref
    cases variadic <;> cases c <;> cases v <;> cases ref <;> rfl
  · intro T h
    cases T <;> first | rfl | simp [Ty.isFunc] at h

/-- Witness of C5: a pointer to a function and a reference to a function are
not function types; `int(int, ...) const volatile &&` is. -/
theorem C5_is_function_witness :
    (Ty.ptr (.func void .nil false false false .none false) false false).isFunc = false ∧
    is_function (.ptr (.func void .nil false false false .none false) false false) = false ∧
    is_function (.lref (.func void .nil false false false .none false)) = false ∧
    is_function (.func (.named 1 false false) (.cons (.named 1 false false) .nil)
      true true true .rvalue false) = true :=
  ⟨rfl, C5_is_function.2.1 _ rfl, C5_is_function.2.1 _ rfl, C5_is_function.1 _ _ _ _ _ _⟩

/-! ## Decay -/

theorem is_array_eq (T : Ty) : is_array T = T.isArr := by
  cases T <;> rfl

theorem is_function_of_not_func (T : Ty) (h : T.isFunc = false) : is_function T = false := by
  cases T <;> first | rfl | simp [Ty.isFunc] at h

theorem is_function_func (res : Ty) (args : TyList) (variadic c v : Bool) (ref : RefQual) :
    is_function (.func res args variadic c v ref false) = true := by
  cases variadic <;> cases c <;> cases v <;> cases ref <;> rfl

/-- C3: for every type `T` whose `remove_reference<T>::type` `U` is not a
function type, `decay<T>::type` is what the C++ standard defines: pointer to
`remove_extent<U>::type` when `U` is an array of known or unknown bound (one
dimension is dropped), and `remove_cv<U>::type` otherwise. -/
theorem C3_decay_non_function (T : Ty) (hU : (remove_reference T).isFunc = false) :
    decay T = some (decay_standard T) ∧
    (∀ (E : Ty) (n : Nat), remove_reference T = .arr E n → decay T = some E.pointer) ∧
    (∀ E : Ty, remove_reference T = .arrU E → decay T = some E.pointer) ∧
    ((remove_reference T).isArr = false → decay T = some (remove_cv (remove_reference T))) := by
  have hf := is_function_of_not_func _ hU
  have key : decay T = some (decay_standard T) := by
    unfold decay decay_standard
    simp only [hf, hU, is_array_eq]
    cases h : (remove_reference T).isArr <;> simp [decay_selector]
  refine ⟨key, ?_, ?_, ?_⟩
  · intro E n h
    rw [key]
    unfold decay_standard
    rw [h]
    rfl
  · intro E h
    rw [key]
    unfold decay_standard
    rw [h]
    rfl
  · intro h
    rw [key]
    unfold decay_standard
    simp [h, hU]

/-- Witness of C3: `int[2][3]` decays to `int(*)[3]`, and `const int&` to `int`. -/
theorem C3_decay_non_function_witness :
    (remove_reference (.arr (.arr (.named 1 false false) 3) 2)).isFunc = false ∧
    decay (.arr (.arr (.named 1 false false) 3) 2)
      = some (.ptr (.arr (.named 1 false false) 3) false false) ∧
    decay (.lref (.named 1 true false)) = some (.named 1 false false) :=
  ⟨rfl, (C3_decay_non_function (.arr (.arr (.named 1 false false) 3) 2) rfl).2.1 _ _ rfl,
   (C3_decay_non_function (.lref (.named 1 true false)) rfl).1⟩

/-- C4, as stated, fails: for the function type `void()` the standard's decay
is the pointer `void(*)()`, while `decay<void()>` has no member `type`; the
same holds for the reference `void(&)()`. -/
theorem C4_decay_function_counterexample :
    decay (.func void .nil false false false .none false) = none ∧
    decay_standard (.func void .nil false false false .none false)
      = .ptr (.func void .nil false false false .none false) false false ∧
    decay (.lref (.func void .nil false false false .none false)) = none := by
  decide

/-- C4, amended: `decay<T>::type` is defined whenever
`remove_reference<T>::type` is not a function type, and then it is the
standard's decay; when `remove_reference<T>::type` is a function type without
`noexcept`, `__decay_selector` has no specialisation to select and
`decay<T>::type` is not defined. -/
theorem C4_decay_defined (T : Ty) :
    ((remove_reference T).isFunc = false → decay T = some (decay_standard T)) ∧
    (∀ (res : Ty) (args : TyList) (variadic c v : Bool) (ref : RefQual),
      remove_reference T = .func res args variadic c v ref false → decay T = none) := by
  constructor
  · intro hU
    have hf := is_function_of_not_func _ hU
    unfold decay decay_standard
    simp only [hf, hU, is_array_eq]
    cases h : (remove_reference T).isArr <;> simp [decay_selector]
  · intro res args variadic c v ref h
    unfold decay
    simp only [h, is_function_func]
    cases is_array (Ty.func res args variadic c v ref false) <;> rfl

/-- Witness of C4 amended: `int* const&&` decays to `int*`; `void(&&)(int)`
has no decay. -/
theorem C4_decay_defined_witness :
    (remove_reference (.rref (.ptr (.named 1 false false) true false))).isFunc = false ∧
    decay (.rref (.ptr (.named 1 false false) true false))
      = some (.ptr (.named 1 false false) false false) ∧
    decay (.rref (.func void (.cons (.named 1 false false) .nil) false false false .none false))
      = none :=
  ⟨rfl, (C4_decay_defined (.rref (.ptr (.named 1 false false) true false))).1 rfl,
   (C4_decay_defined
     (.rref (.func void (.cons (.named 1 false false) .nil) false false false .none false))).2
     _ _ _ _ _ _ rfl⟩

/-! ## Tuple protocol -/

theorem Ty.isConst_setConst_true : ∀ T : Ty, (T.setConst true).isConst = T.isQualifiable
  | .arr e _ => by simp only [Ty.setConst, Ty.isConst, Ty.isQualifiable]; exact Ty.isConst_setConst_true e
  | .arrU e => by simp only [Ty.setConst, Ty.isConst, Ty.isQualifiable]; exact Ty.isConst_setConst_true e
  | .named _ _ _ | .ptr _ _ _ | .memptr _ _ _ _ | .lref _ | .rref _
  | .func _ _ _ _ _ _ _ => by simp [Ty.setConst, Ty.isConst, Ty.isQualifiable]

theorem Ty.isVolatile_setVolatile_true : ∀ T : Ty, (T.setVolatile true).isVolatile = T.isQualifiable
  | .arr e _ => by
    simp only [Ty.setVolatile, Ty.isVolatile, Ty.isQualifiable]; exact Ty.isVolatile_setVolatile_true e
  | .arrU e => by
    simp only [Ty.setVolatile, Ty.isVolatile, Ty.isQualifiable]; exact Ty.isVolatile_setVolatile_true e
  | .named _ _ _ | .ptr _ _ _ | .memptr _ _ _ _ | .lref _ | .rref _
  | .func _ _ _ _ _ _ _ => by simp [Ty.setVolatile, Ty.isVolatile, Ty.isQualifiable]

theorem Ty.isQualifiable_setConst (b : Bool) : ∀ T : Ty, (T.setConst b).isQualifiable = T.isQualifiable
  | .arr e _ => by simp only [Ty.setConst, Ty.isQualifiable]; exact Ty.isQualifiable_setConst b e
  | .arrU e => by simp only [Ty.setConst, Ty.isQualifiable]; exact Ty.isQualifiable_setConst b e
  | .named _ _ _ | .ptr _ _ _ | .memptr _ _ _ _ | .lref _ | .rref _
  | .func _ _ _ _ _ _ _ => by simp [Ty.setConst, Ty.isQualifiable]

theorem Ty.setConst_of_isConst {T : Ty} {b : Bool} (h : T.isConst = b) : T.setConst b = T := by
  rw [← h]; exact T.setConst_isConst

theorem Ty.setVolatile_of_isVolatile {T : Ty} {b : Bool} (h : T.isVolatile = b) :
    T.setVolatile b = T := by
  rw [← h]; exact T.setVolatile_isVolatile

/-- The qualifiers a specialisation of `tuple_element` puts on the element type. -/
theorem tuple_element_fuel_unqualified (ext : Nat → Ty → Option Ty) (fuel i : Nat) (T : Ty)
    (hc : T.isConst = false) (hv : T.isVolatile = false) :
    tuple_element_fuel ext (fuel + 1) i T = ext i T := by
  simp [tuple_element_fuel, match_const_volatile, match_const, match_volatile, hc, hv]

theorem tuple_element_fuel_const_volatile (ext : Nat → Ty → Option Ty) (fuel i : Nat) (T : Ty)
    (hc : T.isConst = true) (hv : T.isVolatile = true) :
    tuple_element_fuel ext (fuel + 1) i T
      = (tuple_element_fuel ext fuel i ((T.setConst false).setVolatile false)).map add_cv := by
  simp [tuple_element_fuel, match_const_volatile, hc, hv]

theorem tuple_element_fuel_const (ext : Nat → Ty → Option Ty) (fuel i : Nat) (T : Ty)
    (hc : T.isConst = true) (hv : T.isVolatile = false) :
    tuple_element_fuel ext (fuel + 1) i T
      = (tuple_element_fuel ext fuel i (T.setConst false)).map add_const := by
  simp [tuple_element_fuel, match_const_volatile, match_const, hc, hv]

theorem tuple_element_fuel_volatile (ext : Nat → Ty → Option Ty) (fuel i : Nat) (T : Ty)
    (hc : T.isConst = false) (hv : T.isVolatile = true) :
    tuple_element_fuel ext (fuel + 1) i T
      = (tuple_element_fuel ext fuel i (T.setVolatile false)).map add_volatile := by
  simp [tuple_element_fuel, match_const_volatile, match_const, match_volatile, hc, hv]

theorem tuple_element_fuel_eq (ext : Nat → Ty → Option Ty) (fuel i : Nat) (T : Ty) :
    tuple_element_fuel ext (fuel + 2) i T
      = (ext i (remove_cv T)).map
          (fun E => (if T.isConst then add_const else id)
            ((if T.isVolatile then add_volatile else id) E)) := by
  have hu : ∀ X : Ty, X.isConst = false → X.isVolatile = false →
      tuple_element_fuel ext (fuel + 1) i X = ext i X :=
    fun X => tuple_element_fuel_unqualified ext fuel i X
  rw [remove_cv_eq]
  cases hc : T.isConst <;> cases hv : T.isVolatile
  · rw [Ty.setVolatile_of_isVolatile hv, Ty.setConst_of_isConst hc,
      tuple_element_fuel_unqualified ext (fuel + 1) i T hc hv]
    simp
  · have h1 : (T.setVolatile false).isConst = false := by rw [Ty.isConst_setVolatile, hc]
    rw [Ty.setConst_of_isConst h1, tuple_element_fuel_volatile ext (fuel + 1) i T hc hv,
      hu _ h1 (Ty.isVolatile_setVolatile_false T)]
    rfl
  · have h1 : (T.setVolatile false) = T := Ty.setVolatile_of_isVolatile hv
    have h2 : (T.setConst false).isVolatile = false := by rw [Ty.isVolatile_setConst, hv]
    rw [h1, tuple_element_fuel_const ext (fuel + 1) i T hc hv,
      hu _ (Ty.isConst_setConst_false T) h2]
    rfl
  · have h1 : ((T.setConst false).setVolatile false).isConst = false := by
      rw [Ty.isConst_setVolatile, Ty.isConst_setConst_false]
    rw [tuple_element_fuel_const_volatile ext (fuel + 1) i T hc hv,
      hu _ h1 (Ty.isVolatile_setVolatile_false _), Ty.setConst_setVolatile]
    rfl

theorem tuple_element_eq (ext : Nat → Ty → Option Ty) (i : Nat) (T : Ty) :
    tuple_element ext i T
      = (ext i (remove_cv T)).map
          (fun E => (if T.isConst then add_const else id)
            ((if T.isVolatile then add_volatile else id) E)) :=
  tuple_element_fuel_eq ext 0 i T

theorem remove_cv_const (T : Ty) : remove_cv T.const = remove_cv T := by
  simp only [remove_cv_eq, Ty.const, Ty.setConst_setVolatile, Ty.setConst_setConst]

theorem remove_cv_volatile (T : Ty) : remove_cv T.volatile = remove_cv T := by
  simp only [remove_cv_eq, Ty.volatile, Ty.setConst_setVolatile, Ty.setVolatile_setVolatile]

/-- C9: for every index `i` and every type `T` that takes cv-qualifiers (as
every tuple-like class type does) with `tuple_element<i, T>::type` equal to
`E`: `tuple_element<i, const T>::type` is `add_const<E>`,
`tuple_element<i, volatile T>::type` is `add_volatile<E>`,
`tuple_element<i, const volatile T>::type` is `add_cv<E>`, and the last is
also `add_const` of the volatile result and `add_volatile` of the const
result. -/
theorem C9_tuple_element_cv (ext : Nat → Ty → Option Ty) (i : Nat) (T E : Ty)
    (hT : T.isQualifiable = true) (hE : tuple_element ext i T = some E) :
    tuple_element ext i T.const = some (add_const E) ∧
    tuple_element ext i T.volatile = some (add_volatile E) ∧
    tuple_element ext i T.const.volatile = some (add_cv E) ∧
    tuple_element ext i T.const.volatile = (tuple_element ext i T.volatile).map add_const ∧
    tuple_element ext i T.const.volatile = (tuple_element ext i T.const).map add_volatile := by
  have hcc : T.const.isConst = true := by rw [Ty.const, Ty.isConst_setConst_true, hT]
  have hcv : T.const.isVolatile = T.isVolatile := by rw [Ty.const, Ty.isVolatile_setConst]
  have hvc : T.volatile.isConst = T.isConst := by rw [Ty.volatile, Ty.isConst_setVolatile]
  have hvv : T.volatile.isVolatile = true := by
    rw [Ty.volatile, Ty.isVolatile_setVolatile_true, hT]
  have hxc : T.const.volatile.isConst = true := by
    rw [Ty.volatile, Ty.isConst_setVolatile, hcc]
  have hxv : T.const.volatile.isVolatile = true := by
    rw [Ty.volatile, Ty.isVolatile_setVolatile_true, Ty.const, Ty.isQualifiable_setConst, hT]
  have hrx : remove_cv T.const.volatile = remove_cv T := by
    rw [remove_cv_volatile, remove_cv_const]
  rw [tuple_element_eq] at hE
  rw [tuple_element_eq, tuple_element_eq ext i T.volatile, tuple_element_eq ext i T.const.volatile,
    remove_cv_const, remove_cv_volatile, hrx, hcc, hcv, hvc, hvv, hxc, hxv]
  cases h0 : ext i (remove_cv T) with
  | none => rw [h0] at hE; cases hE
  | some E0 =>
    rw [h0] at hE
    simp only [Option.map_some', Option.some.injEq] at hE
    subst hE
    cases T.isConst <;> cases T.isVolatile <;>
      simp [add_cv, add_const, add_volatile, Ty.const, Ty.volatile, Ty.setConst_setVolatile,
        Ty.setConst_setConst, Ty.setVolatile_setVolatile]

/-- Witness of C9: a class type whose elements are all `int`. -/
theorem C9_tuple_element_cv_witness :
    (Ty.named 7 false false).isQualifiable = true ∧
    tuple_element (fun _ _ => some (.named 1 false false)) 0 (.named 7 false false)
      = some (.named 1 false false) ∧
    tuple_element (fun _ _ => some (.named 1 false false)) 0 (Ty.named 7 false false).const
      = some (.named 1 true false) ∧
    tuple_element (fun _ _ => some (.named 1 false false)) 0 (Ty.named 7 false false).const.volatile
      = some (.named 1 true true) :=
  ⟨rfl, rfl,
   (C9_tuple_element_cv (fun _ _ => some (.named 1 false false)) 0 (.named 7 false false)
     (.named 1 false false) rfl rfl).1,
   (C9_tuple_element_cv (fun _ _ => some (.named 1 false false)) 0 (.named 7 false false)
     (.named 1 false false) rfl rfl).2.2.1⟩

theorem is_same_remove_cv (Tp : Ty) :
    is_same Tp (remove_cv Tp) = (!Tp.isConst && !Tp.isVolatile) := by
  unfold is_same
  rw [remove_cv_eq]
  cases hc : Tp.isConst <;> cases hv : Tp.isVolatile
  · have h1 : (Tp.setVolatile false).isConst = false := by rw [Ty.isConst_setVolatile, hc]
    rw [Ty.setConst_of_isConst h1, Ty.setVolatile_of_isVolatile hv]
    simp
  all_goals
    simp only [Bool.not_true, Bool.not_false, Bool.and_false, Bool.false_and, decide_eq_false_iff_not]
    intro h
    have h1 := congrArg Ty.isConst h
    have h2 := congrArg Ty.isVolatile h
    rw [Ty.isConst_setConst_false] at h1
    rw [Ty.isVolatile_setConst, Ty.isVolatile_setVolatile_false] at h2
    first
      | exact absurd (hc.symm.trans h1) (by decide)
      | exact absurd (hv.symm.trans h2) (by decide)

theorem enable_if_has_tuple_size_eq (ts : Ty → Option Nat) (Tp : Ty) :
    enable_if_has_tuple_size ts Tp
      = if Tp.isConst = false ∧ Tp.isVolatile = false then (ts Tp).map (fun _ => Tp) else none := by
  unfold enable_if_has_tuple_size enable_if
  simp only [is_same_remove_cv]
  cases hc : Tp.isConst <;> cases hv : Tp.isVolatile <;> simp
  cases ts Tp <;> simp

theorem tuple_size_fuel_unqualified (ext : Ty → Option Nat) (fuel : Nat) (T : Ty)
    (hc : T.isConst = false) (hv : T.isVolatile = false) :
    tuple_size_fuel ext (fuel + 1) T = ext T := by
  simp [tuple_size_fuel, tuple_size_spec_const_volatile, tuple_size_spec_const,
    tuple_size_spec_volatile, match_const_volatile, match_const, match_volatile, hc, hv]

theorem tuple_size_spec_const_eq (ts : Ty → Option Nat) (T : Ty) :
    tuple_size_spec_const ts T
      = if T.isConst = true ∧ T.isVolatile = false then (ts (remove_cv T)).map (fun _ => remove_cv T)
        else none := by
  unfold tuple_size_spec_const match_const
  rw [remove_cv_eq]
  cases hc : T.isConst <;> cases hv : T.isVolatile <;>
    simp [enable_if_has_tuple_size_eq, Ty.isConst_setConst_false, Ty.isVolatile_setConst, hv,
      Ty.setVolatile_of_isVolatile]

theorem tuple_size_spec_volatile_eq (ts : Ty → Option Nat) (T : Ty) :
    tuple_size_spec_volatile ts T
      = if T.isConst = false ∧ T.isVolatile = true then (ts (remove_cv T)).map (fun _ => remove_cv T)
        else none := by
  unfold tuple_size_spec_volatile match_volatile
  rw [remove_cv_eq]
  cases hc : T.isConst <;> cases hv : T.isVolatile <;>
    simp [enable_if_has_tuple_size_eq, Ty.isVolatile_setVolatile_false, Ty.isConst_setVolatile, hc,
      Ty.setConst_of_isConst]

theorem tuple_size_spec_const_volatile_eq (ts : Ty → Option Nat) (T : Ty) :
    tuple_size_spec_const_volatile ts T
      = if T.isConst = true ∧ T.isVolatile = true then (ts (remove_cv T)).map (fun _ => remove_cv T)
        else none := by
  unfold tuple_size_spec_const_volatile match_const_volatile
  rw [remove_cv_eq]
  cases hc : T.isConst <;> cases hv : T.isVolatile <;>
    simp [enable_if_has_tuple_size_eq, Ty.isVolatile_setVolatile_false, Ty.isConst_setVolatile,
      Ty.isConst_setConst_false, Ty.setConst_setVolatile]

theorem tuple_size_fuel_step (ext : Ty → Option Nat) (fuel : Nat) (T : Ty) :
    tuple_size_fuel ext (fuel + 1) T =
      match tuple_size_spec_const_volatile (tuple_size_fuel ext fuel) T with
      | some Tp => tuple_size_fuel ext fuel Tp
      | none =>
        match tuple_size_spec_const (tuple_size_fuel ext fuel) T,
              tuple_size_spec_volatile (tuple_size_fuel ext fuel) T with
        | some Tp, none => tuple_size_fuel ext fuel Tp
        | none, some Tp => tuple_size_fuel ext fuel Tp
        | some _, some _ => none
        | none, none => if T.isConst || T.isVolatile then none else ext T := rfl

theorem tuple_size_fuel_eq (ext : Ty → Option Nat) (fuel : Nat) (T : Ty) :
    tuple_size_fuel ext (fuel + 2) T = ext (remove_cv T) := by
  have hu : tuple_size_fuel ext (fuel + 1) (remove_cv T) = ext (remove_cv T) := by
    apply tuple_size_fuel_unqualified
    · rw [remove_cv_eq, Ty.isConst_setConst_false]
    · rw [remove_cv_eq, Ty.isVolatile_setConst, Ty.isVolatile_setVolatile_false]
  rw [tuple_size_fuel_step, tuple_size_spec_const_volatile_eq, tuple_size_spec_const_eq,
    tuple_size_spec_volatile_eq, hu]
  cases hc : T.isConst <;> cases hv : T.isVolatile
  · have hT : remove_cv T = T := by
      rw [remove_cv_eq, Ty.setVolatile_of_isVolatile hv, Ty.setConst_of_isConst hc]
    simp [hT]
  all_goals cases he : ext (remove_cv T) <;> simp [hu, he]

theorem tuple_size_eq (ext : Ty → Option Nat) (T : Ty) : tuple_size ext T = ext (remove_cv T) :=
  tuple_size_fuel_eq ext 0 T

/-- C10: for every type `T`, in particular every cv-unqualified one: if
`tuple_size<T>::value` is defined, then `tuple_size` of `const T`, of
`volatile T` and of `const volatile T` is defined with the same value; if it
is not defined, then on each of the three qualified types none of the three
specialisations is selected (the substitution into
`__enable_if_has_tuple_size` fails) and `tuple_size` stays undefined. -/
theorem C10_tuple_size_cv (ext : Ty → Option Nat) (T : Ty) :
    (∀ n : Nat, tuple_size ext T = some n →
      tuple_size ext T.const = some n ∧
      tuple_size ext T.volatile = some n ∧
      tuple_size ext T.const.volatile = some n) ∧
    (tuple_size ext T = none →
      ∀ Q : Ty, Q ∈ [T.const, T.volatile, T.const.volatile] →
        tuple_size_spec_const (tuple_size ext) Q = none ∧
        tuple_size_spec_volatile (tuple_size ext) Q = none ∧
        tuple_size_spec_const_volatile (tuple_size ext) Q = none ∧
        tuple_size ext Q = none) := by
  have hx : remove_cv T.const.volatile = remove_cv T := by
    rw [remove_cv_volatile, remove_cv_const]
  constructor
  · intro n hn
    rw [tuple_size_eq] at hn
    rw [tuple_size_eq, tuple_size_eq, tuple_size_eq, remove_cv_const, remove_cv_volatile, hx]
    exact ⟨hn, hn, hn⟩
  · intro hn Q hQ
    have hts : tuple_size ext (remove_cv T) = none := by
      rw [tuple_size_eq] at hn ⊢
      rw [show remove_cv (remove_cv T) = remove_cv T by
        simp only [remove_cv_eq, Ty.setConst_setVolatile, Ty.setConst_setConst,
          Ty.setVolatile_setVolatile]]
      exact hn
    have hr : remove_cv Q = remove_cv T := by
      simp only [List.mem_cons, List.mem_singleton, List.not_mem_nil, or_false] at hQ
      rcases hQ with h | h | h <;> rw [h]
      · exact remove_cv_const T
      · exact remove_cv_volatile T
      · exact hx
    rw [tuple_size_spec_const_eq, tuple_size_spec_volatile_eq, tuple_size_spec_const_volatile_eq,
      hr, hts]
    refine ⟨by simp, by simp, by simp, ?_⟩
    rw [tuple_size_eq, hr, ← tuple_size_eq ext T]
    exact hn

/-- Witness of C10: the class type 7 has `tuple_size` 3 and the class type 8
has none. -/
theorem C10_tuple_size_cv_witness :
    tuple_size (fun T => if T = .named 7 false false then some 3 else none) (.named 7 false false)
      = some 3 ∧
    tuple_size (fun T => if T = .named 7 false false then some 3 else none)
      (Ty.named 7 false false).const.volatile = some 3 ∧
    tuple_size (fun T => if T = .named 7 false false then some 3 else none) (.named 8 false false)
      = none ∧
    tuple_size_spec_const (tuple_size (fun T => if T = .named 7 false false then some 3 else none))
      (Ty.named 8 false false).const = none :=
  ⟨by decide,
   ((C10_tuple_size_cv (fun T => if T = .named 7 false false then some 3 else none)
     (.named 7 false false)).1 3 (by decide)).2.2,
   by decide,
   ((C10_tuple_size_cv (fun T => if T = .named 7 false false then some 3 else none)
     (.named 8 false false)).2 (by decide) _ (List.mem_cons_self _ _)).1⟩

/-! ## Adding and removing qualifiers -/

/-- C11: for every object type `T` (one that takes cv-qualifiers: not a
reference, not a function type), the add and remove traits round-trip:
`remove_cv` of `add_cv<T>` is `remove_cv<T>` (and is `T` when `T` is
unqualified), `remove_const` of `add_const<T>` is `remove_const<T>`,
`is_const` of `add_const<T>` and `is_volatile` of `add_volatile<T>` are true,
and `add_cv<T>` is `add_volatile` of `add_const<T>`. -/
theorem C11_add_remove_round_trip (T : Ty) (hT : T.isQualifiable = true) :
    remove_cv (add_cv T) = remove_cv T ∧
    (is_const T = false → is_volatile T = false → remove_cv (add_cv T) = T) ∧
    remove_const (add_const T) = remove_const T ∧
    is_const (add_const T) = true ∧
    is_volatile (add_volatile T) = true ∧
    add_cv T = add_volatile (add_const T) := by
  have h1 : remove_cv (add_cv T) = remove_cv T := by
    unfold add_cv add_const add_volatile
    rw [remove_cv_const, remove_cv_volatile]
  refine ⟨h1, ?_, ?_, ?_, ?_, ?_⟩
  · intro hc hv
    rw [is_const_eq] at hc
    rw [is_volatile_eq] at hv
    rw [h1, remove_cv_eq, Ty.setVolatile_of_isVolatile hv, Ty.setConst_of_isConst hc]
  · simp only [remove_const_eq, add_const, Ty.const, Ty.setConst_setConst]
  · rw [is_const_eq, add_const, Ty.const, Ty.isConst_setConst_true, hT]
  · rw [is_volatile_eq, add_volatile, Ty.volatile, Ty.isVolatile_setVolatile_true, hT]
  · simp only [add_cv, add_const, add_volatile, Ty.const, Ty.volatile, Ty.setConst_setVolatile]

/-- Witness of C11: the unqualified pointer type `const int*`. -/
theorem C11_add_remove_round_trip_witness :
    (Ty.ptr (.named 1 true false) false false).isQualifiable = true ∧
    remove_cv (add_cv (.ptr (.named 1 true false) false false))
      = .ptr (.named 1 true false) false false ∧
    add_cv (.ptr (.named 1 true false) false false) = .ptr (.named 1 true false) true true :=
  ⟨rfl,
   (C11_add_remove_round_trip (.ptr (.named 1 true false) false false) rfl).2.1 rfl rfl,
   (C11_add_remove_round_trip (.ptr (.named 1 true false) false false) rfl).2.2.2.2.2⟩

/-! ## Forwarding -/

/-- C12: for every type `T`, `forward<T>` applied to an lvalue of type
`remove_reference<T>::type` returns a reference to the same object, of type
`T &&` after reference collapsing: the lvalue reference `U &` when `T` is
`U &`, the rvalue reference `U &&` when `T` is `U &&` or a type `U` that is not
a reference. -/
theorem C12_forward (T : Ty) (t : Reference (remove_reference T).lvalue_reference) :
    (forward T t).object = t.object ∧
    (forward T t).type = T.rvalue_reference ∧
    (∀ U : Ty, T = .lref U → (forward T t).type = .lref U) ∧
    (∀ U : Ty, T = .rref U → (forward T t).type = .rref U) ∧
    (T.isRef = false → (forward T t).type = .rref T) ∧
    is_lvalue_reference (forward T t).type = is_lvalue_reference T := by
  refine ⟨rfl, rfl, ?_, ?_, ?_, ?_⟩
  · rintro U rfl
    rfl
  · rintro U rfl
    rfl
  · intro h
    cases T <;> first | rfl | simp [Ty.isRef] at h
  · cases T <;> rfl

/-- Witness of C12: `forward<int>` on the `int` object 3 gives an `int &&` to
the object 3. -/
theorem C12_forward_witness :
    (Ty.named 1 false false).isRef = false ∧
    (forward (.named 1 false false) ⟨3⟩).object = 3 ∧
    (forward (.named 1 false false) ⟨3⟩).type = .rref (.named 1 false false) :=
  ⟨rfl, (C12_forward (.named 1 false false) ⟨3⟩).1,
   (C12_forward (.named 1 false false) ⟨3⟩).2.2.2.2.1 rfl⟩

/-! ## Function types with `noexcept` -/

/-- C13, on the code: a function type with `noexcept` matches none of the
specialisations of `is_function`, whose patterns are written without an
exception specification, so `is_function` is false on it and `decay` gives
the function type itself, where the standard's decay of `void() noexcept` is
the pointer to it. -/
theorem C13_is_function_noexcept :
    (∀ (res : Ty) (args : TyList) (variadic c v : Bool) (ref : RefQual),
      is_function (.func res args variadic c v ref true) = false ∧
      decay (.func res args variadic c v ref true)
        = some (.func res args variadic c v ref true)) ∧
    decay_standard (.func void .nil false false false .none true)
      = .ptr (.func void .nil false false false .none true) false false := by
  refine ⟨?_, by decide⟩
  intro res args variadic c v ref
  cases variadic <;> cases c <;> cases v <;> cases ref <;> exact ⟨rfl, rfl⟩

/-! ## Predicates and transformations -/

theorem Ty.ne_ptr_self (U : Ty) (c v : Bool) : U ≠ .ptr U c v := by
  intro h
  have := congrArg sizeOf h
  simp at this
  omega

theorem Ty.ne_arr_self (E : Ty) (n : Nat) : E ≠ .arr E n := by
  intro h
  have := congrArg sizeOf h
  simp at this
  omega

theorem Ty.ne_arrU_self (E : Ty) : E ≠ .arrU E := by
  intro h
  have := congrArg sizeOf h
  simp at this

/-- C18: for every type `T`, `remove_pointer<T>::type` differs from `T` exactly
when `is_pointer<T>::value` is true, and `remove_extent<T>::type` differs from
`T` exactly when `is_array<T>::value` is true. -/
theorem C18_predicates_agree (T : Ty) :
    (remove_pointer T ≠ T ↔ is_pointer T = true) ∧
    (remove_extent T ≠ T ↔ is_array T = true) := by
  constructor
  · cases hp : T.isPtr
    · have h1 : remove_pointer T = T := by
        unfold remove_pointer remove_pointer_helper
        rw [match_pointer_remove_cv_of_not_ptr T hp]
      have h2 : is_pointer T = false := by
        unfold is_pointer is_pointer_helper
        rw [match_pointer_remove_cv_of_not_ptr T hp]
        rfl
      rw [h1, h2]
      simp
    · cases T <;> simp [Ty.isPtr] at hp
      rename_i U c v
      have h1 : remove_pointer (.ptr U c v) = U := by
        unfold remove_pointer remove_pointer_helper
        rw [match_pointer_remove_cv_ptr]
      have h2 : is_pointer (.ptr U c v) = true := by
        unfold is_pointer is_pointer_helper
        rw [match_pointer_remove_cv_ptr]
        rfl
      rw [h1, h2]
      simp only [iff_true]
      exact Ty.ne_ptr_self U c v
  · cases T with
    | arr E n =>
      have h1 : remove_extent (.arr E n) = E := rfl
      have h2 : is_array (.arr E n) = true := rfl
      rw [h1, h2]
      simp only [iff_true]
      exact Ty.ne_arr_self E n
    | arrU E =>
      have h1 : remove_extent (.arrU E) = E := rfl
      have h2 : is_array (.arrU E) = true := rfl
      rw [h1, h2]
      simp only [iff_true]
      exact Ty.ne_arrU_self E
    | _ => simp [remove_extent, is_array, match_array, match_array_unbounded]

/-! ## Boolean constants -/

theorem or_cons_false (B1 B2 B3 : BoolConstant) (Bn : List BoolConstant) (h : B1.value = false) :
    or_ (B1 :: B2 :: B3 :: Bn) = or_ (B2 :: B3 :: Bn) := by
  rw [or_, h]; rfl

theorem or_cons_true (B1 B2 B3 : BoolConstant) (Bn : List BoolConstant) (h : B1.value = true) :
    or_ (B1 :: B2 :: B3 :: Bn) = B1 := by
  rw [or_, h]; rfl

theorem and_cons_true (B1 B2 B3 : BoolConstant) (Bn : List BoolConstant) (h : B1.value = true) :
    and_ (B1 :: B2 :: B3 :: Bn) = and_ (B2 :: B3 :: Bn) := by
  rw [and_, h]; rfl

theorem and_cons_false (B1 B2 B3 : BoolConstant) (Bn : List BoolConstant) (h : B1.value = false) :
    and_ (B1 :: B2 :: B3 :: Bn) = B1 := by
  rw [and_, h]; rfl

theorem or_select : ∀ Bs : List BoolConstant,
    or_ Bs = (Bs.find? (fun B => B.value)).getD (Bs.getLast?.getD false_type)
  | [] => rfl
  | [B1] => by cases h : B1.value <;> simp [or_, List.find?, h]
  | [B1, B2] => by
    cases h1 : B1.value <;> cases h2 : B2.value <;> simp [or_, conditional, List.find?, h1, h2]
  | B1 :: B2 :: B3 :: Bn => by
    have ih := or_select (B2 :: B3 :: Bn)
    cases h1 : B1.value
    · rw [or_cons_false _ _ _ _ h1, ih]
      simp [List.find?, h1]
    · rw [or_cons_true _ _ _ _ h1]
      simp [List.find?, h1]

theorem and_select : ∀ Bs : List BoolConstant,
    and_ Bs = (Bs.find? (fun B => !B.value)).getD (Bs.getLast?.getD true_type)
  | [] => rfl
  | [B1] => by cases h : B1.value <;> simp [and_, List.find?, h]
  | [B1, B2] => by
    cases h1 : B1.value <;> cases h2 : B2.value <;> simp [and_, conditional, List.find?, h1, h2]
  | B1 :: B2 :: B3 :: Bn => by
    have ih := and_select (B2 :: B3 :: Bn)
    cases h1 : B1.value
    · rw [and_cons_false _ _ _ _ h1]
      simp [List.find?, h1]
    · rw [and_cons_true _ _ _ _ h1, ih]
      simp [List.find?, h1]

theorem or_value : ∀ Bs : List BoolConstant, (or_ Bs).value = Bs.any (fun B => B.value)
  | [] => rfl
  | [B1] => by simp [or_]
  | [B1, B2] => by
    cases h1 : B1.value <;> cases h2 : B2.value <;> simp [or_, conditional, h1, h2]
  | B1 :: B2 :: B3 :: Bn => by
    have ih := or_value (B2 :: B3 :: Bn)
    cases h1 : B1.value
    · rw [or_cons_false _ _ _ _ h1, ih]
      simp [h1]
    · rw [or_cons_true _ _ _ _ h1]
      simp [h1]

theorem and_value : ∀ Bs : List BoolConstant, (and_ Bs).value = Bs.all (fun B => B.value)
  | [] => rfl
  | [B1] => by simp [and_]
  | [B1, B2] => by
    cases h1 : B1.value <;> cases h2 : B2.value <;> simp [and_, conditional, h1, h2]
  | B1 :: B2 :: B3 :: Bn => by
    have ih := and_value (B2 :: B3 :: Bn)
    cases h1 : B1.value
    · rw [and_cons_false _ _ _ _ h1]
      simp [h1]
    · rw [and_cons_true _ _ _ _ h1, ih]
      simp [h1]

/-- C16: for every list `B1, ..., Bn` of boolean constants, the value of
`__or_` is the logical OR of the values (false for the empty list) and the
value of `__and_` is their logical AND (true for the empty list); `__or_`
derives from the first `Bi` whose value is true and else from the last `Bi`,
`__and_` from the first `Bi` whose value is false and else from the last
`Bi`; and `_Require` names `void` exactly when every value is true and is a
substitution failure otherwise. -/
theorem C16_or_and_require (Bs : List BoolConstant) :
    (or_ Bs).value = Bs.any (fun B => B.value) ∧
    (and_ Bs).value = Bs.all (fun B => B.value) ∧
    ((or_ []).value = false ∧ (and_ []).value = true) ∧
    or_ Bs = (Bs.find? (fun B => B.value)).getD (Bs.getLast?.getD false_type) ∧
    and_ Bs = (Bs.find? (fun B => !B.value)).getD (Bs.getLast?.getD true_type) ∧
    (Require Bs = some void ↔ ∀ B ∈ Bs, B.value = true) ∧
    (Require Bs = none ↔ ¬ ∀ B ∈ Bs, B.value = true) := by
  refine ⟨or_value Bs, and_value Bs, ⟨rfl, rfl⟩, or_select Bs, and_select Bs, ?_, ?_⟩
  · unfold Require enable_if
    rw [and_value]
    cases h : Bs.all (fun B => B.value)
    · have hn : ¬ ∀ B ∈ Bs, B.value = true := by
        intro hall
        rw [List.all_eq_true.mpr (fun B hB => hall B hB)] at h
        cases h
      simp [hn]
    · have hy : ∀ B ∈ Bs, B.value = true := fun B hB => List.all_eq_true.mp h B hB
      simp
      exact hy
  · unfold Require enable_if
    rw [and_value]
    cases h : Bs.all (fun B => B.value)
    · have hn : ¬ ∀ B ∈ Bs, B.value = true := by
        intro hall
        rw [List.all_eq_true.mpr (fun B hB => hall B hB)] at h
        cases h
      simp [hn]
    · have hy : ∀ B ∈ Bs, B.value = true := fun B hB => List.all_eq_true.mp h B hB
      simp
      exact hy

/-- Witness of C16: with values false, true, true the first true constant is
selected by `__or_` and the first false one by `__and_`; `_Require` fails on
them and names `void` on two true constants. -/
theorem C16_or_and_require_witness :
    or_ [⟨5, false⟩, ⟨6, true⟩, ⟨7, true⟩] = ⟨6, true⟩ ∧
    and_ [⟨5, false⟩, ⟨6, true⟩, ⟨7, true⟩] = ⟨5, false⟩ ∧
    Require [⟨5, false⟩, ⟨6, true⟩, ⟨7, true⟩] = none ∧
    Require [⟨6, true⟩, ⟨7, true⟩] = some void :=
  ⟨(C16_or_and_require [⟨5, false⟩, ⟨6, true⟩, ⟨7, true⟩]).2.2.2.1,
   (C16_or_and_require [⟨5, false⟩, ⟨6, true⟩, ⟨7, true⟩]).2.2.2.2.1,
   (C16_or_and_require [⟨5, false⟩, ⟨6, true⟩, ⟨7, true⟩]).2.2.2.2.2.2.mpr (by decide),
   (C16_or_and_require [⟨6, true⟩, ⟨7, true⟩]).2.2.2.2.2.1.mpr (by decide)⟩

/-! ## Decay is a normal form -/

theorem decay_of_unqualified_scalar (R : Ty) (hr : R.isRef = false) (ha : R.isArr = false)
    (hf : is_function R = false) (hc : R.isConst = false) (hv : R.isVolatile = false) :
    decay R = some R := by
  have h1 : remove_reference R = R := by
    cases R <;> first | rfl | simp [Ty.isRef] at hr
  unfold decay
  simp only [h1, is_array_eq, ha, hf, decay_selector]
  rw [remove_cv_eq, Ty.setVolatile_of_isVolatile hv, Ty.setConst_of_isConst hc]

/-- C17: for every type `T` on which `decay` is defined (`T` a C++ type, so not
a reference to a reference), `decay<T>::type` is in normal form: it is not a
reference type, not an array type, and has no top-level `const` or `volatile`;
and `decay` is defined on it and gives it back. -/
theorem C17_decay_normal_form (T R : Ty) (hwf : (remove_reference T).isRef = false)
    (hR : decay T = some R) :
    R.isRef = false ∧ is_array R = false ∧ is_const R = false ∧ is_volatile R = false ∧
    decay R = some R := by
  have key : R.isRef = false ∧ R.isArr = false ∧ is_function R = false ∧
      R.isConst = false ∧ R.isVolatile = false := by
    unfold decay at hR
    simp only [is_array_eq] at hR
    cases hf : is_function (remove_reference T)
    · cases ha : (remove_reference T).isArr
      · rw [hf, ha] at hR
        simp only [decay_selector, Option.some.injEq] at hR
        subst hR
        rw [remove_cv_eq, Ty.isConst_setConst_false, Ty.isVolatile_setConst,
          Ty.isVolatile_setVolatile_false]
        generalize remove_reference T = U at hwf hf ha
        cases U with
        | func res args variadic c v ref noex => exact ⟨rfl, rfl, hf, rfl, rfl⟩
        | lref U => simp [Ty.isRef] at hwf
        | rref U => simp [Ty.isRef] at hwf
        | arr E n => simp [Ty.isArr] at ha
        | arrU E => simp [Ty.isArr] at ha
        | _ => exact ⟨rfl, rfl, rfl, rfl, rfl⟩
      · rw [hf, ha] at hR
        simp only [decay_selector, Option.some.injEq] at hR
        subst hR
        exact ⟨rfl, rfl, rfl, rfl, rfl⟩
    · rw [hf] at hR
      cases (remove_reference T).isArr <;> simp [decay_selector] at hR
  obtain ⟨hr, ha, hf, hc, hv⟩ := key
  refine ⟨hr, ?_, ?_, ?_, decay_of_unqualified_scalar R hr ha hf hc hv⟩
  · rw [is_array_eq, ha]
  · rw [is_const_eq, hc]
  · rw [is_volatile_eq, hv]

/-- Witness of C17: `const int(&)[3]` decays to `const int*`, which decays to
itself. -/
theorem C17_decay_normal_form_witness :
    (remove_reference (.lref (.arr (.named 1 true false) 3))).isRef = false ∧
    decay (.lref (.arr (.named 1 true false) 3)) = some (.ptr (.named 1 true false) false false) ∧
    decay (.ptr (.named 1 true false) false false) = some (.ptr (.named 1 true false) false false) :=
  ⟨rfl, rfl,
   (C17_decay_normal_form (.lref (.arr (.named 1 true false) 3))
     (.ptr (.named 1 true false) false false) rfl rfl).2.2.2.2⟩

/-! ## The recursion of `Gen` -/

theorem Gen_depth_succ (N : Nat) (hN : N ≠ 0) :
    (if N = 0 then 1 else Nat.log 2 N + 2)
      = (if N / 2 = 0 then 1 else Nat.log 2 (N / 2) + 2) + 1 := by
  rw [if_neg hN]
  by_cases h : N / 2 = 0
  · have h1 : N = 1 := by omega
    subst h1
    simp
  · rw [if_neg h, Nat.log_of_one_lt_of_le (by decide) (by omega)]

theorem Gen_instantiations_fuel_eq (fuel : Nat) :
    ∀ N : Nat, (if N = 0 then 1 else Nat.log 2 N + 2) ≤ fuel →
      Gen_instantiations_fuel fuel N
        = (List.range (if N = 0 then 1 else Nat.log 2 N + 2)).map (fun k => N / 2 ^ k) := by
  induction fuel with
  | zero =>
    intro N h
    split at h <;> omega
  | succ fuel ih =>
    intro N h
    by_cases hN : N = 0
    · subst hN
      simp [Gen_instantiations_fuel]
    · rw [Gen_depth_succ N hN] at h ⊢
      have hrec := ih (N / 2) (by omega)
      rw [Gen_instantiations_fuel, if_neg hN, hrec, List.range_succ_eq_map, List.map_cons,
        List.map_map]
      congr 1
      · simp
      · apply List.map_congr_left
        intro k _
        simp only [Function.comp, Nat.succ_eq_add_one]
        rw [Nat.div_div_eq_div_mul, pow_succ']

theorem Gen_depth_le (N : Nat) : (if N = 0 then 1 else Nat.log 2 N + 2) ≤ N + 1 := by
  split
  · omega
  · rename_i h
    have := Nat.log_lt_self 2 h
    omega

theorem Gen_fuel_of_depth_le (w : Nat) (T : IntegerType) (fuel : Nat) :
    ∀ N : Nat, (if N = 0 then 1 else Nat.log 2 N + 2) ≤ fuel → N < 2 ^ w →
      (N : Int) ≤ T.maxValue →
      Gen_fuel w T fuel N = some ⟨T, (List.range N).map (fun k : Nat => (k : Int))⟩ := by
  induction fuel with
  | zero =>
    intro N h
    split at h <;> omega
  | succ fuel ih =>
    intro N hf hw hT
    by_cases hN : N = 0
    · subst hN; rfl
    · rw [Gen_depth_succ N hN] at hf
      have hsplit : 2 * (N / 2) + N % 2 = N := Nat.div_add_mod N 2
      have hrec := ih (N / 2) (by omega) (by omega) (by omega)
      have hext := Extend_range w T (N / 2) (N % 2) (by omega) (by omega) (by omega)
      rw [hsplit] at hext
      simp only [Gen_fuel, if_neg hN, hrec, Option.some_bind, hext]

theorem Gen_fuel_of_lt_depth (w : Nat) (T : IntegerType) (fuel : Nat) :
    ∀ N : Nat, fuel < (if N = 0 then 1 else Nat.log 2 N + 2) → Gen_fuel w T fuel N = none := by
  induction fuel with
  | zero => intro N _; rfl
  | succ fuel ih =>
    intro N hf
    by_cases hN : N = 0
    · rw [if_pos hN] at hf
      omega
    · rw [Gen_depth_succ N hN] at hf
      have hrec := ih (N / 2) (by omega)
      simp only [Gen_fuel, if_neg hN, hrec, Option.none_bind]

/-- C15: for every `N`, the instantiations of `Gen` started by `Gen<T, N>` are
`N, N/2, N/4, ..., 0` with integer division: the chain ends in the base case
`Gen<T, 0>`, and for `N ≥ 1` it has exactly `floor(log2 N) + 2` members; that
many nested instantiations give `Gen<T, N>::type`, and one fewer do not. -/
theorem C15_Gen_chain (N : Nat) :
    Gen_instantiations N
      = (List.range (if N = 0 then 1 else Nat.log 2 N + 2)).map (fun k => N / 2 ^ k) ∧
    (Gen_instantiations N).getLast? = some 0 ∧
    (Gen_instantiations N).head? = some N ∧
    (1 ≤ N → (Gen_instantiations N).length = Nat.log 2 N + 2) ∧
    (1 ≤ N → Gen_instantiations_fuel (Nat.log 2 N + 2) N = Gen_instantiations N) ∧
    (∀ (w : Nat) (T : IntegerType), 1 ≤ N → N < 2 ^ w → (N : Int) ≤ T.maxValue →
      Gen_fuel w T (Nat.log 2 N + 2) N = Gen w T N ∧ (Gen w T N).isSome = true) ∧
    (∀ (w : Nat) (T : IntegerType), 1 ≤ N → Gen_fuel w T (Nat.log 2 N + 1) N = none) := by
  have hchain := Gen_instantiations_fuel_eq (N + 1) N (Gen_depth_le N)
  have hchain' : Gen_instantiations N
      = (List.range (if N = 0 then 1 else Nat.log 2 N + 2)).map (fun k => N / 2 ^ k) := hchain
  refine ⟨hchain', ?_, ?_, ?_, ?_, ?_, ?_⟩
  · rw [hchain']
    by_cases hN : N = 0
    · subst hN
      simp
    · rw [if_neg hN, List.range_succ, List.map_append, List.map_singleton,
        List.getLast?_concat]
      exact congrArg some (Nat.div_eq_of_lt (Nat.lt_pow_succ_log_self (by decide) N))
  · rw [hchain']
    by_cases hN : N = 0
    · subst hN
      simp
    · rw [if_neg hN, List.range_succ_eq_map]
      simp
  · intro h1
    rw [hchain', if_neg (by omega)]
    simp
  · intro h1
    have h := Gen_instantiations_fuel_eq (Nat.log 2 N + 2) N (by rw [if_neg (by omega)])
    rw [h, hchain']
  · intro w T h1 hw hT
    have h := Gen_fuel_of_depth_le w T (Nat.log 2 N + 2) N (by rw [if_neg (by omega)]) hw hT
    have h2 : Gen w T N = some ⟨T, (List.range N).map (fun k : Nat => (k : Int))⟩ :=
      Gen_fuel_range w T (N + 1) N (Nat.lt_succ_self N) hw hT
    rw [h, h2]
    exact ⟨rfl, rfl⟩
  · intro w T h1
    exact Gen_fuel_of_lt_depth w T (Nat.log 2 N + 1) N (by rw [if_neg (by omega)]; omega)

/-- Witness of C15: the chain of `Gen<T, 5>` is 5, 2, 1, 0, of length
`floor(log2 5) + 2 = 4`. -/
theorem C15_Gen_chain_witness :
    1 ≤ 5 ∧ Gen_instantiations 5 = [5, 2, 1, 0] ∧
    (Gen_instantiations 5).length = Nat.log 2 5 + 2 ∧
    Gen_fuel 64 ⟨32, true⟩ (Nat.log 2 5 + 1) 5 = none :=
  ⟨by decide, by decide, (C15_Gen_chain 5).2.2.2.1 (by decide),
   (C15_Gen_chain 5).2.2.2.2.2.2 64 ⟨32, true⟩ (by decide)⟩

/-! ## The invariant of `Extend` -/

theorem convert_args_values (T : IntegerType) (l : List Int)
    (h : ∀ x ∈ l, T.minValue ≤ x ∧ x ≤ T.maxValue) :
    convert_args T (l.map some) = some l := by
  induction l with
  | nil => rfl
  | cons a l ih =>
    have ha : T.convert a = some a := by
      unfold IntegerType.convert
      rw [if_pos (h a (List.mem_cons_self a l))]
    have hl : ∀ x ∈ l, T.minValue ≤ x ∧ x ≤ T.maxValue :=
      fun x hx => h x (List.mem_cons_of_mem a hx)
    simp only [List.map_cons, convert_args, Option.some_bind, ha, ih hl]

theorem add_size_t_eq (w : Nat) (T : IntegerType) (i : Int) (s : Nat)
    (h0 : 0 ≤ i + s) (hw : i + s < 2 ^ w) (hT : i + s ≤ T.maxValue) :
    add_size_t w T i s = some (i + s) := by
  unfold add_size_t
  split
  · congr 1
    exact Int.emod_eq_of_lt h0 hw
  · split
    · unfold IntegerType.convert
      have := T.minValue_nonpos
      rw [if_pos ⟨by omega, hT⟩]
    · rename_i hs
      congr 1
      apply Int.emod_eq_of_lt h0
      have : T.maxValue = 2 ^ T.bits - 1 := by
        unfold IntegerType.maxValue
        rw [if_neg hs]
      omega

/-- The result of `Extend` when every argument it writes is a value of the
element type and of `size_t`. -/
theorem Extend_eq (w : Nat) (Seq : integer_sequence) (SeqSize Rem : Nat) (hRem : Rem ≤ 1)
    (hInts : ∀ i ∈ Seq.Ints, Seq.value_type.minValue ≤ i ∧ i ≤ Seq.value_type.maxValue)
    (hSum : ∀ i ∈ Seq.Ints,
      0 ≤ i + SeqSize ∧ i + SeqSize < 2 ^ w ∧ i + SeqSize ≤ Seq.value_type.maxValue)
    (hTwice : Rem = 1 →
      2 * SeqSize < 2 ^ w ∧ ((2 * SeqSize : Nat) : Int) ≤ Seq.value_type.maxValue) :
    Extend w Seq SeqSize Rem
      = some ⟨Seq.value_type,
          Seq.Ints ++ Seq.Ints.map (fun i => i + (SeqSize : Int))
            ++ (if Rem = 1 then [((2 * SeqSize : Nat) : Int)] else [])⟩ := by
  have hshift : Seq.Ints.map (fun i => add_size_t w Seq.value_type i SeqSize)
      = (Seq.Ints.map (fun i => i + (SeqSize : Int))).map some := by
    rw [List.map_map]
    apply List.map_congr_left
    intro i hi
    obtain ⟨h0, hw, hT⟩ := hSum i hi
    simp only [Function.comp]
    exact add_size_t_eq w Seq.value_type i SeqSize h0 hw hT
  have hvals : ∀ x ∈ Seq.Ints ++ Seq.Ints.map (fun i => i + (SeqSize : Int)),
      Seq.value_type.minValue ≤ x ∧ x ≤ Seq.value_type.maxValue := by
    intro x hx
    rcases List.mem_append.mp hx with h | h
    · exact hInts x h
    · obtain ⟨i, hi, rfl⟩ := List.mem_map.mp h
      obtain ⟨h0, _, hT⟩ := hSum i hi
      have := Seq.value_type.minValue_nonpos
      exact ⟨by omega, hT⟩
  rcases Nat.le_one_iff_eq_zero_or_eq_one.mp hRem with h | h
  · subst h
    simp only [Extend, integer_sequence.instantiate]
    rw [hshift, ← List.map_append, convert_args_values _ _ hvals]
    simp
  · subst h
    obtain ⟨hw2, hT2⟩ := hTwice rfl
    have ht : [twice_size_t w SeqSize] = [((2 * SeqSize : Nat) : Int)].map some := by
      rw [twice_size_t_of_lt w SeqSize hw2]; rfl
    have hvals2 : ∀ x ∈ Seq.Ints ++ Seq.Ints.map (fun i => i + (SeqSize : Int))
        ++ [((2 * SeqSize : Nat) : Int)],
        Seq.value_type.minValue ≤ x ∧ x ≤ Seq.value_type.maxValue := by
      intro x hx
      rcases List.mem_append.mp hx with h | h
      · exact hvals x h
      · rw [List.mem_singleton] at h
        subst h
        have := Seq.value_type.minValue_nonpos
        exact ⟨by omega, hT2⟩
    simp only [Extend, integer_sequence.instantiate]
    rw [hshift, ht, ← List.map_append, ← List.map_append, convert_args_values _ _ hvals2]
    simp

/-- Every instantiation of `Extend` made for `Gen<T, N>` is
`Extend<integer_sequence<T, 0, ..., M/2 - 1>, M/2, M%2>` for a member `M` of
the chain of `Gen`, with `0 < M ≤ N`. -/
theorem Extend_instantiations_fuel_mem (w : Nat) (T : IntegerType) (fuel : Nat) :
    ∀ N : Nat, N < fuel → N < 2 ^ w → (N : Int) ≤ T.maxValue →
      ∀ x ∈ Extend_instantiations_fuel w T fuel N, ∃ M : Nat, 0 < M ∧ M ≤ N ∧
        x = (⟨T, (List.range (M / 2)).map (fun k : Nat => (k : Int))⟩, M / 2, M % 2) := by
  induction fuel with
  | zero => intro N h; omega
  | succ fuel ih =>
    intro N hf hw hT x hx
    by_cases hN : N = 0
    · simp [Extend_instantiations_fuel, hN] at hx
    · have hdiv : N / 2 < N := Nat.div_lt_self (Nat.pos_of_ne_zero hN) (by decide)
      have hgen := Gen_fuel_range w T fuel (N / 2) (by omega) (by omega) (by omega)
      rw [Extend_instantiations_fuel, if_neg hN, hgen] at hx
      rcases List.mem_append.mp hx with h | h
      · obtain ⟨M, hM0, hMN, hM⟩ := ih (N / 2) (by omega) (by omega) (by omega) x h
        exact ⟨M, hM0, by omega, hM⟩
      · rw [List.mem_singleton] at h
        exact ⟨N, Nat.pos_of_ne_zero hN, le_refl N, h⟩

theorem Extend_instantiations_last (w : Nat) (T : IntegerType) (N : Nat) (hN : 1 ≤ N)
    (hw : N < 2 ^ w) (hT : (N : Int) ≤ T.maxValue) :
    (⟨T, (List.range (N / 2)).map (fun k : Nat => (k : Int))⟩, N / 2, N % 2)
      ∈ Extend_instantiations w T N := by
  have hdiv : N / 2 < N := Nat.div_lt_self (by omega) (by decide)
  have hgen := Gen_fuel_range w T N (N / 2) (by omega) (by omega) (by omega)
  unfold Extend_instantiations
  rw [Extend_instantiations_fuel, if_neg (by omega), hgen]
  exact List.mem_append_right _ (List.mem_singleton_self _)

theorem Extend_shape_length (Ints : List Int) (SeqSize Rem : Nat) (hRem : Rem ≤ 1)
    (hSize : SeqSize = Ints.length) :
    (Ints ++ Ints.map (fun i => i + (SeqSize : Int))
      ++ (if Rem = 1 then [((2 * SeqSize : Nat) : Int)] else [])).length = 2 * SeqSize + Rem := by
  rcases Nat.le_one_iff_eq_zero_or_eq_one.mp hRem with h | h <;> subst h <;>
    simp [hSize] <;> omega

/-- C14: in every instantiation `Extend<Seq, SeqSize, Rem>` made for
`Gen<T, N>`, `SeqSize` is the number of integers of `Seq` and `Rem` is 0 or 1,
and its `type` is `Ints`, then each of `Ints` plus `SeqSize`, then
`2 * SeqSize` when `Rem` is 1, of length `2 * SeqSize + Rem`; the same holds of
any `Extend<integer_sequence<T, Ints...>, SeqSize, Rem>` with
`SeqSize == sizeof...(Ints)` and `Rem` 0 or 1 whose written arguments are
values of `T` and of `size_t`. -/
theorem C14_Extend_invariant (w : Nat) (T : IntegerType) :
    (∀ N : Nat, N < 2 ^ w → (N : Int) ≤ T.maxValue →
      ∀ (Seq : integer_sequence) (SeqSize Rem : Nat),
        (Seq, SeqSize, Rem) ∈ Extend_instantiations w T N →
        SeqSize = Seq.size ∧ Rem ≤ 1 ∧
        Extend w Seq SeqSize Rem
          = some ⟨T, Seq.Ints ++ Seq.Ints.map (fun i => i + (SeqSize : Int))
              ++ (if Rem = 1 then [((2 * SeqSize : Nat) : Int)] else [])⟩ ∧
        (Extend w Seq SeqSize Rem).map integer_sequence.size = some (2 * SeqSize + Rem)) ∧
    (∀ N : Nat, 1 ≤ N → N < 2 ^ w → (N : Int) ≤ T.maxValue →
      (⟨T, (List.range (N / 2)).map (fun k : Nat => (k : Int))⟩, N / 2, N % 2)
        ∈ Extend_instantiations w T N) ∧
    (∀ (Ints : List Int) (SeqSize Rem : Nat), SeqSize = Ints.length → Rem ≤ 1 →
      (∀ i ∈ Ints, T.minValue ≤ i ∧ i ≤ T.maxValue) →
      (∀ i ∈ Ints, 0 ≤ i + SeqSize ∧ i + SeqSize < 2 ^ w ∧ i + SeqSize ≤ T.maxValue) →
      (Rem = 1 → 2 * SeqSize < 2 ^ w ∧ ((2 * SeqSize : Nat) : Int) ≤ T.maxValue) →
      Extend w ⟨T, Ints⟩ SeqSize Rem
        = some ⟨T, Ints ++ Ints.map (fun i => i + (SeqSize : Int))
            ++ (if Rem = 1 then [((2 * SeqSize : Nat) : Int)] else [])⟩ ∧
      (Extend w ⟨T, Ints⟩ SeqSize Rem).map integer_sequence.size = some (2 * SeqSize + Rem)) := by
  have general : ∀ (Ints : List Int) (SeqSize Rem : Nat), SeqSize = Ints.length → Rem ≤ 1 →
      (∀ i ∈ Ints, T.minValue ≤ i ∧ i ≤ T.maxValue) →
      (∀ i ∈ Ints, 0 ≤ i + SeqSize ∧ i + SeqSize < 2 ^ w ∧ i + SeqSize ≤ T.maxValue) →
      (Rem = 1 → 2 * SeqSize < 2 ^ w ∧ ((2 * SeqSize : Nat) : Int) ≤ T.maxValue) →
      Extend w ⟨T, Ints⟩ SeqSize Rem
        = some ⟨T, Ints ++ Ints.map (fun i => i + (SeqSize : Int))
            ++ (if Rem = 1 then [((2 * SeqSize : Nat) : Int)] else [])⟩ ∧
      (Extend w ⟨T, Ints⟩ SeqSize Rem).map integer_sequence.size = some (2 * SeqSize + Rem) := by
    intro Ints SeqSize Rem hSize hRem hInts hSum hTwice
    have h := Extend_eq w ⟨T, Ints⟩ SeqSize Rem hRem hInts hSum hTwice
    refine ⟨h, ?_⟩
    rw [h, Option.map_some', integer_sequence.size]
    exact congrArg some (Extend_shape_length Ints SeqSize Rem hRem hSize)
  refine ⟨?_, fun N hN hw hT => Extend_instantiations_last w T N hN hw hT, general⟩
  intro N hw hT Seq SeqSize Rem hmem
  obtain ⟨M, hM0, hMN, hM⟩ :=
    Extend_instantiations_fuel_mem w T (N + 1) N (Nat.lt_succ_self N) hw hT _ hmem
  simp only [Prod.mk.injEq] at hM
  obtain ⟨rfl, rfl, rfl⟩ := hM
  have hSize : M / 2 = ((List.range (M / 2)).map (fun k : Nat => (k : Int))).length := by simp
  have hRem : M % 2 ≤ 1 := by omega
  have hmin := T.minValue_nonpos
  have hInts : ∀ i ∈ (List.range (M / 2)).map (fun k : Nat => (k : Int)),
      T.minValue ≤ i ∧ i ≤ T.maxValue := by
    intro i hi
    obtain ⟨k, hk, rfl⟩ := List.mem_map.mp hi
    have : k < M / 2 := List.mem_range.mp hk
    constructor <;> omega
  have hSum : ∀ i ∈ (List.range (M / 2)).map (fun k : Nat => (k : Int)),
      0 ≤ i + ((M / 2 : Nat) : Int) ∧ i + ((M / 2 : Nat) : Int) < 2 ^ w ∧
      i + ((M / 2 : Nat) : Int) ≤ T.maxValue := by
    intro i hi
    obtain ⟨k, hk, rfl⟩ := List.mem_map.mp hi
    have hk' : k < M / 2 := List.mem_range.mp hk
    have hlt : ((k + M / 2 : Nat) : Int) < ((2 ^ w : Nat) : Int) := by
      exact_mod_cast (show k + M / 2 < 2 ^ w by omega)
    push_cast at hlt
    refine ⟨by omega, hlt, by omega⟩
  have hTwice : M % 2 = 1 →
      2 * (M / 2) < 2 ^ w ∧ ((2 * (M / 2) : Nat) : Int) ≤ T.maxValue := by
    intro _
    constructor <;> omega
  have h := general _ (M / 2) (M % 2) hSize hRem hInts hSum hTwice
  exact ⟨hSize, hRem, h.1, h.2⟩

/-- Witness of C14: the instantiations of `Extend` made for `Gen<int, 5>`, and
`Extend<integer_sequence<int, 0, 1>, 2, 1>` among them. -/
theorem C14_Extend_invariant_witness :
    (5 < 2 ^ 64 ∧ ((5 : Nat) : Int) ≤ (IntegerType.mk 32 true).maxValue) ∧
    Extend_instantiations 64 ⟨32, true⟩ 5
      = [(⟨⟨32, true⟩, []⟩, 0, 1), (⟨⟨32, true⟩, [0]⟩, 1, 0), (⟨⟨32, true⟩, [0, 1]⟩, 2, 1)] ∧
    Extend 64 ⟨⟨32, true⟩, [0, 1]⟩ 2 1 = some ⟨⟨32, true⟩, [0, 1, 2, 3, 4]⟩ :=
  ⟨⟨by decide, by decide⟩, by decide,
   ((C14_Extend_invariant 64 ⟨32, true⟩).1 5 (by decide) (by decide)
     ⟨⟨32, true⟩, [0, 1]⟩ 2 1 (by decide)).2.2.1⟩

end TypeTraits
